import Mathlib

/-!
# SecurityWorker upload-and-poll client (`bin/index.js`)

A shallow embedding of the command-line client. The client talks to three
collaborators: the process (`argv`, `process.exit`, `console.log`), the file
system (`fs.existsSync`, `fs.readFileSync`, `fs.writeFileSync`) and the remote
compiler service (two `superagent` POST requests). What the collaborators
answer is collected in a `World`; running the client on a world yields the
ordered list of effects it performs, the resulting file-system state and how
the run ends.

Files are told apart by what their paths resolve to, not by the path strings.
A request promise is settled the way `superagent` does it: it resolves on an
answer with a 2xx status and rejects on every other outcome.
-/

namespace SecurityWorker

/-! ## Data model -/

/-- File-system state. A path handed to an `fs` call denotes a file; `resolve`
gives that file as a canonical name, so that two paths denote the same file
exactly when they resolve to the same name (`input.js` and `./input.js`, a link
and its target). What is stored is kept per file. -/
structure FileSystem where
  /-- The file a path denotes. -/
  resolve : String → String
  /-- Whether the file exists. -/
  present : String → Bool
  /-- The text of the file; `none` when reading it raises (no such file,
  directory, missing permission, ...). -/
  text : String → Option String
  /-- Whether writing the given text to the file returns normally; `false` when it
  raises (missing parent directory, read-only directory, no space left, ...). -/
  accepts : String → String → Bool

/-- Result of `fs.existsSync(path)`. -/
def FileSystem.existsSync (fs : FileSystem) (path : String) : Bool :=
  fs.present (fs.resolve path)

/-- Result of `fs.readFileSync(path).toString()`; `none` when the call raises. -/
def FileSystem.readFileSync (fs : FileSystem) (path : String) : Option String :=
  fs.text (fs.resolve path)

/-- Whether `fs.writeFileSync(path, content)` returns normally for the text
`content`. -/
def FileSystem.writable (fs : FileSystem) (path content : String) : Bool :=
  fs.accepts (fs.resolve path) content

/-- Effect of `fs.writeFileSync(path, data)`, `data` being a string or not
(`none`). The call raises (`none`, the state is then left as it was) when `data`
is not a string or when the file system does not accept the write; otherwise the
file that `path` denotes exists and holds the text, and every other file is as
before. -/
def FileSystem.writeFileSync (fs : FileSystem) (path : String) (data : Option String) :
    Option FileSystem :=
  match data with
  | none => none
  | some content =>
    if fs.writable path content then
      some
        { resolve := fs.resolve
          present := fun f => if f = fs.resolve path then true else fs.present f
          text := fun f => if f = fs.resolve path then some content else fs.text f
          accepts := fs.accepts }
    else none

/-- Body of the answer to `POST /code`. `code = none` stands for a body without
a `code` property (`body.code` is `undefined`). `data = none` stands for a body
whose `data` is `undefined` or `null`; `data = some fn` for a body whose `data`
is an object, `fn` being its `filename` property (`none` when absent). -/
structure SubmitBody where
  code : Option Int
  data : Option (Option String)
  deriving DecidableEq, Repr

/-- Body of the answer to `POST /status`. `code = none` stands for a body
without a `code` property. `data = some d` stands for a body whose `data` is the
string `d`, `data = none` for a body whose `data` is absent or not a string. -/
structure PollBody where
  code : Option Int
  data : Option String
  deriving DecidableEq, Repr

/-- What an awaited request yields: the promise rejects (`raised`), or it
resolves to `{ status, body }`; `body = none` stands for a `null` body, on
which every property read raises a `TypeError`. -/
inductive Reply (β : Type) where
  | raised
  | resolved (status : Int) (body : Option β)
  deriving DecidableEq, Repr

/-- What the HTTP exchange behind one `request.post(...)` comes to, once
`superagent` has done the re-sending asked for by `.retry(5)`: no answer within
the timeouts (`failed`), or a final answer with its status and parsed body. -/
inductive Exchange (β : Type) where
  | failed
  | answered (status : Int) (body : Option β)
  deriving DecidableEq, Repr

/-- How `superagent` settles the awaited promise: it resolves to
`{ status, body }` when the answer has a 2xx status, and rejects otherwise (an
answer with any other status, or no answer). -/
def settle {β : Type} : Exchange β → Reply β
  | Exchange.failed => Reply.raised
  | Exchange.answered status body =>
    if 200 ≤ status ∧ status < 300 then Reply.resolved status body else Reply.raised

/-- Object passed to `.send(...)`: `{ code: data }` or `{ filename }`. The job
identifier is `none` when `body.data.filename` was `undefined`. -/
inductive Payload where
  | code (data : String)
  | filename (filename : Option String)
  deriving DecidableEq, Repr

/-- One `request.post(url).send(body).retry(n).timeout({ response, deadline })`. -/
structure Request where
  url : String
  body : Payload
  retry : Nat
  response : Nat
  deadline : Nat
  deriving DecidableEq, Repr

/-- The lines the client prints, one constructor per `console.log` template,
carrying the values interpolated into it. -/
inductive LogLine where
  /-- Line `[E] not find filepath: ${filepath}`. -/
  | notFound (filepath : Option String)
  /-- Line `[I] upload codes to SecurityWorker compiler server...`. -/
  | uploading
  /-- Line `[E] request status error: ${status}`. -/
  | statusError (status : Int)
  /-- Line `[E] request data error: ${JSON.stringify(body)}` after the submission. -/
  | submitDataError (body : SubmitBody)
  /-- Line `[E] request data error: ${JSON.stringify(body)}` in the poll loop. -/
  | pollDataError (body : PollBody)
  /-- Line `[I] upload successfuly, compiling...`. -/
  | uploaded
  /-- Line `[I] code write to ./${filename}.js`, `target` being `./${filename}.js`. -/
  | writing (target : String)
  deriving DecidableEq, Repr

/-- Effects of the client, in the order it performs them. -/
inductive Event where
  | log (line : LogLine)
  | post (req : Request)
  /-- A `setTimeout(resolve, delay)` that the client awaits. -/
  | sleep (delay : Nat)
  /-- A call `fs.writeFileSync(path, content)` that returned normally. -/
  | writeFile (path content : String)
  /-- A call `fs.writeFileSync(path, data)` that raised; `data = none` when the
  value passed was not a string. -/
  | writeFileRaised (path : String) (data : Option String)
  deriving DecidableEq, Repr

/-- How a run stands at the end of the collaborators' script. -/
inductive Outcome where
  /-- The client called `process.exit(code)`. -/
  | exited (code : Nat)
  /-- The async function ran to its end (after `break`). -/
  | returned
  /-- An exception left the async function: its promise rejects and nothing
  handles the rejection. -/
  | rejected
  /-- A status request is in flight and no further answer is scripted. -/
  | polling
  deriving DecidableEq, Repr

/-- Everything the client is given in one invocation. -/
structure World where
  /-- Value of `process.argv[2]`; `none` when the argument is absent. -/
  argv2 : Option String
  fs : FileSystem
  /-- How the awaited submission request settles. -/
  submit : Reply SubmitBody
  /-- How the successive awaited status requests settle. -/
  polls : List (Reply PollBody)

/-- A run: effects so far, file-system state, and outcome. -/
structure Run where
  events : List Event
  fs : FileSystem
  outcome : Outcome

/-! ## The program -/

/-- The function `sleep(delay)`: a promise resolved by `setTimeout(resolve, delay)`.
Awaiting it suspends the client for `delay` milliseconds. -/
def sleep (delay : Nat) : List Event := [Event.sleep delay]

/-- Interpolation `${v}` of a value that is a string or `undefined`. -/
def interpolate : Option String → String
  | some s => s
  | none => "undefined"

/-- Comparison `v == n` of a value that is a number or `undefined` against a
number literal. -/
def looseEq (v : Option Int) (n : Int) : Bool :=
  match v with
  | some m => m == n
  | none => false

/-- The request built for the submission. -/
def submitRequest (data : String) : Request :=
  { url := "http://34.92.175.137/code", body := Payload.code data,
    retry := 5, response := 15 * 1000, deadline := 30 * 1000 }

/-- The request built in each poll iteration. -/
def statusRequest (filename : Option String) : Request :=
  { url := "http://34.92.175.137/status", body := Payload.filename filename,
    retry := 5, response := 15 * 1000, deadline := 30 * 1000 }

/-- The template `./${filename}.js`. -/
def outputPath (filename : Option String) : String :=
  "./" ++ interpolate filename ++ ".js"

/-- How one pass through the body of `for (;;)` ends. -/
inductive Flow where
  /-- A `continue`, or the end of the `try` block: next iteration. -/
  | next
  /-- An exception reached `catch (e) {}`: next iteration. -/
  | caught
  /-- The `break`. -/
  | done
  deriving DecidableEq, Repr

/-- One pass through the loop body. -/
structure Step where
  events : List Event
  fs : FileSystem
  flow : Flow

/-- One iteration of the poll loop, given the outcome of its status request. -/
def pollStep (filename : Option String) (fs : FileSystem) (reply : Reply PollBody) : Step :=
  -- const { status, body } = await request.post(".../status").send({ filename })...
  let req := Event.post (statusRequest filename)
  match reply with
  -- the awaited request rejects: control goes to `catch (e) {}`
  | Reply.raised => { events := [req], fs := fs, flow := Flow.caught }
  | Reply.resolved status body =>
    -- if (status != 200) { console.log(...); continue; }
    if status ≠ 200 then
      { events := [req, Event.log (LogLine.statusError status)], fs := fs, flow := Flow.next }
    else
      match body with
      -- reading `body.code` of `null` raises: control goes to `catch (e) {}`
      | none => { events := [req], fs := fs, flow := Flow.caught }
      | some b =>
        -- if (body.code == -1) { console.log(...); continue; }
        if looseEq b.code (-1) then
          { events := [req, Event.log (LogLine.pollDataError b)], fs := fs, flow := Flow.next }
        -- if (body.code == 1) { await sleep(2000); continue; }
        else if looseEq b.code 1 then
          { events := req :: sleep 2000, fs := fs, flow := Flow.next }
        -- if (body.code == 0) { console.log(...); fs.writeFileSync(...); break; }
        else if looseEq b.code 0 then
          let target := outputPath filename
          match b.data, fs.writeFileSync target b.data with
          | some content, some fs' =>
            { events := [req, Event.log (LogLine.writing target), Event.writeFile target content],
              fs := fs', flow := Flow.done }
          -- the write raises after the line was printed: control goes to `catch (e) {}`
          | _, _ =>
            { events := [req, Event.log (LogLine.writing target),
                Event.writeFileRaised target b.data],
              fs := fs, flow := Flow.caught }
        -- no branch taken: the `try` block ends and the loop goes round
        else
          { events := [req], fs := fs, flow := Flow.next }

/-- The loop `for (;;) { try { ... } catch (e) {} }` run against the scripted
outcomes of its status requests. When the script is used up the client has
issued one more status request and awaits its answer. -/
def pollLoop (filename : Option String) (fs : FileSystem) : List (Reply PollBody) → Run
  | [] => { events := [Event.post (statusRequest filename)], fs := fs, outcome := Outcome.polling }
  | reply :: rest =>
    let s := pollStep filename fs reply
    match s.flow with
    | Flow.done => { events := s.events, fs := s.fs, outcome := Outcome.returned }
    | _ =>
      let r := pollLoop filename s.fs rest
      { events := s.events ++ r.events, fs := r.fs, outcome := r.outcome }

/-- The async function that is the whole program. No `try` surrounds the code
before the loop, so an exception raised there ends the run as `rejected`. -/
def main (w : World) : Run :=
  -- const filepath = argv[2];
  -- if (!filepath || !fs.existsSync(filepath)) { console.log(...); process.exit(1); }
  match w.argv2 with
  | none => { events := [Event.log (LogLine.notFound none)], fs := w.fs, outcome := Outcome.exited 1 }
  | some filepath =>
    if filepath = "" ∨ w.fs.existsSync filepath = false then
      { events := [Event.log (LogLine.notFound (some filepath))], fs := w.fs,
        outcome := Outcome.exited 1 }
    else
      -- let data = fs.readFileSync(filepath).toString();
      match w.fs.readFileSync filepath with
      | none => { events := [], fs := w.fs, outcome := Outcome.rejected }
      | some data =>
        -- console.log(...); let { status, body } = await request.post(".../code").send({ code: data })...
        let sent := [Event.log LogLine.uploading, Event.post (submitRequest data)]
        match w.submit with
        | Reply.raised => { events := sent, fs := w.fs, outcome := Outcome.rejected }
        | Reply.resolved status body =>
          -- if (status != 200) { console.log(...); process.exit(0); }
          if status ≠ 200 then
            { events := sent ++ [Event.log (LogLine.statusError status)], fs := w.fs,
              outcome := Outcome.exited 0 }
          else
            match body with
            | none => { events := sent, fs := w.fs, outcome := Outcome.rejected }
            | some b =>
              -- if (body.code != 0) { console.log(...); process.exit(0); }
              if ¬ looseEq b.code 0 then
                { events := sent ++ [Event.log (LogLine.submitDataError b)], fs := w.fs,
                  outcome := Outcome.exited 0 }
              else
                -- const { filename } = body.data;
                match b.data with
                | none => { events := sent, fs := w.fs, outcome := Outcome.rejected }
                | some filename =>
                  -- console.log(...); for (;;) { ... }
                  let r := pollLoop filename w.fs w.polls
                  { events := sent ++ Event.log LogLine.uploaded :: r.events, fs := r.fs,
                    outcome := r.outcome }

/-- Exit status of the process as far as the program decides it: the argument
of `process.exit`, or `0` when the async function ran to its end. A rejected run
leaves the status to the runtime's policy for unhandled rejections; a run that is
still polling has none. -/
def exitStatus : Outcome → Option Nat
  | Outcome.exited c => some c
  | Outcome.returned => some 0
  | Outcome.rejected => none
  | Outcome.polling => none

/-! ## Observations on runs -/

/-- The requests issued, in order. -/
def requests : List Event → List Request
  | [] => []
  | Event.post r :: es => r :: requests es
  | _ :: es => requests es

/-- The calls to `fs.writeFileSync` that returned normally, as (path, content). -/
def writes : List Event → List (String × String)
  | [] => []
  | Event.writeFile p c :: es => (p, c) :: writes es
  | _ :: es => writes es

/-- The delays awaited, in order. -/
def sleeps : List Event → List Nat
  | [] => []
  | Event.sleep d :: es => d :: sleeps es
  | _ :: es => sleeps es

/-- The lines printed, in order. -/
def logs : List Event → List LogLine
  | [] => []
  | Event.log l :: es => l :: logs es
  | _ :: es => logs es

/-- The calls to `fs.writeFileSync` that raised, as (path, data). -/
def raisedWrites : List Event → List (String × Option String)
  | [] => []
  | Event.writeFileRaised p d :: es => (p, d) :: raisedWrites es
  | _ :: es => raisedWrites es

/-! ## Paths -/

/-- Segments of a POSIX path: the pieces between its `/` characters. -/
def segments : List Char → List (List Char)
  | [] => [[]]
  | c :: cs =>
    if c = '/' then [] :: segments cs
    else
      match segments cs with
      | [] => [[c]]
      | seg :: segs => (c :: seg) :: segs

/-- One step of walking a relative path from the working directory. A position
`some names` is inside the working directory, `names` being the names walked
down, innermost first; `none` means the walk has left the working directory
through `..`. Empty segments and `.` stay in place. -/
def descend (pos : Option (List (List Char))) (seg : List Char) : Option (List (List Char)) :=
  match pos with
  | none => none
  | some names =>
    if seg = [] ∨ seg = ['.'] then some names
    else if seg = ['.', '.'] then
      match names with
      | [] => none
      | _ :: up => some up
    else some (seg :: names)

/-- Where a path leads relative to the working directory; `none` for an absolute
path and for one that leaves the working directory. -/
def locate (path : String) : Option (List (List Char)) :=
  if path.data.head? = some '/' then none
  else (segments path.data).foldl descend (some [])

/-- The path names an entry of the working directory itself. -/
def isDirectChild (path : String) : Bool :=
  match locate path with
  | some [_] => true
  | _ => false

/-- Names joined by `/`, outermost first. -/
def joinNames : List (List Char) → List Char
  | [] => []
  | [name] => name
  | name :: rest => name ++ '/' :: joinNames rest

/-- Canonical name of the file a path denotes in a directory tree without links:
the names from the working directory down, joined by `/`; a path that is
absolute or leaves the working directory is its own name. -/
def canonical (path : String) : String :=
  match locate path with
  | some names => String.mk (joinNames names.reverse)
  | none => path

/-! ## Example file systems -/

/-- A file system for examples: the working directory holds the one file
`input.js`, with text `var a = 1;`; every write is accepted. -/
def demoFs : FileSystem :=
  { resolve := canonical
    present := fun f => f == "input.js"
    text := fun f => if f = "input.js" then some "var a = 1;" else none
    accepts := fun _ _ => true }

/-- As `demoFs`, but every `fs.writeFileSync` raises (read-only directory). -/
def readOnlyFs : FileSystem :=
  { resolve := canonical
    present := fun f => f == "input.js"
    text := fun f => if f = "input.js" then some "var a = 1;" else none
    accepts := fun _ _ => false }

/-- As `demoFs`, in a working directory without subdirectories: a write is
accepted exactly for the files of the working directory itself. -/
def flatFs : FileSystem :=
  { resolve := canonical
    present := fun f => f == "input.js"
    text := fun f => if f = "input.js" then some "var a = 1;" else none
    accepts := fun f _ => !(f.data.contains '/') }

/-! ## Predicates and example worlds -/

/-- A reply with status 200 whose body has `code == 1`. -/
def isPending : Reply PollBody → Bool
  | Reply.resolved status (some b) => status == 200 && looseEq b.code 1
  | _ => false

/-- A reply with status 200 whose body has `code == 0`. -/
def isDone : Reply PollBody → Bool
  | Reply.resolved status (some b) => status == 200 && looseEq b.code 0
  | _ => false

/-- A reply whose body has `code == 0`, whatever its status. -/
def hasCodeZero : Reply PollBody → Bool
  | Reply.resolved _ (some b) => looseEq b.code 0
  | _ => false

/-- A reply on which the loop ends: status 200, `code == 0`, and `data` a string
whose write at the output path the file system accepts. -/
def completes (fn : Option String) (fs : FileSystem) : Reply PollBody → Bool
  | Reply.resolved status (some b) =>
    status == 200 && looseEq b.code 0 &&
      (match b.data with
       | some content => fs.writable (outputPath fn) content
       | none => false)
  | _ => false

/-- Number of status requests of a run that have been answered: all of them,
except the one in flight when the run is still polling. -/
def answered (r : Run) : Nat :=
  (requests r.events).length - (if r.outcome = Outcome.polling then 1 else 0)

/-- World of the `job42` scenario on a file system `fs`: the submission is
accepted with job identifier `job42`, then two "still compiling" replies and the
"done" reply carrying `compiled output`. -/
def job42World (fs : FileSystem) : World :=
  { argv2 := some "input.js", fs := fs,
    submit := Reply.resolved 200 (some { code := some 0, data := some (some "job42") }),
    polls := [Reply.resolved 200 (some { code := some 1, data := none }),
              Reply.resolved 200 (some { code := some 1, data := none }),
              Reply.resolved 200 (some { code := some 0, data := some "compiled output" })] }

/-- World in which the path argument names a file that does not exist. -/
def missingWorld : World :=
  { argv2 := some "/does/not/exist", fs := demoFs, submit := Reply.raised, polls := [] }

/-- World in which the server answers the submission with HTTP status 500. -/
def http500World : World :=
  { argv2 := some "input.js", fs := demoFs,
    submit := settle (Exchange.answered 500 none), polls := [] }

/-- World in which the server answers the submission with HTTP status 201. -/
def http201World : World :=
  { argv2 := some "input.js", fs := demoFs,
    submit := settle (Exchange.answered 201 none), polls := [] }

/-- The path argument is absent, empty, or names a file that does not exist:
the condition `!filepath || !fs.existsSync(filepath)`. -/
def inputMissing (w : World) : Prop :=
  w.argv2 = none ∨ w.argv2 = some "" ∨ ∃ p, w.argv2 = some p ∧ w.fs.existsSync p = false

/-- An exception is raised before the poll loop, given that `p` is the path
argument: by `fs.readFileSync`, by the submission request, by reading `code`
of a `null` body, or by destructuring an absent `data`. -/
def raisesBeforePolling (w : World) (p : String) : Prop :=
  w.fs.readFileSync p = none ∨ w.submit = Reply.raised ∨
  w.submit = Reply.resolved 200 none ∨
  ∃ b, w.submit = Reply.resolved 200 (some b) ∧ b.code = some 0 ∧ b.data = none

/-- World in which the submission request raises. -/
def submitRaisesWorld : World :=
  { argv2 := some "input.js", fs := demoFs, submit := Reply.raised, polls := [] }

/-- World in which the submission is answered `{status 200, body {code: 0}}`,
without `data`. -/
def noDataWorld : World :=
  { argv2 := some "input.js", fs := demoFs,
    submit := Reply.resolved 200 (some { code := some 0, data := none }), polls := [] }

/-- World in which the path argument names a directory: it exists, and reading
it raises. -/
def directoryWorld : World :=
  { argv2 := some "src",
    fs := { resolve := canonical, present := fun f => f == "src", text := fun _ => none,
            accepts := fun _ _ => true },
    submit := Reply.raised, polls := [] }

/-- The `job42` scenario with the job identifier `out/job42`, run in a working
directory that has no `out` subdirectory. -/
def subdirJobWorld : World :=
  { argv2 := some "input.js", fs := flatFs,
    submit := Reply.resolved 200 (some { code := some 0, data := some (some "out/job42") }),
    polls := [Reply.resolved 200 (some { code := some 1, data := none }),
              Reply.resolved 200 (some { code := some 1, data := none }),
              Reply.resolved 200 (some { code := some 0, data := some "compiled output" })] }

/-- World in which the job identifier is `input`, so that the artifact path
`./input.js` denotes the input file `input.js` itself. -/
def inputJobWorld : World :=
  { argv2 := some "input.js", fs := demoFs,
    submit := Reply.resolved 200 (some { code := some 0, data := some (some "input") }),
    polls := [Reply.resolved 200 (some { code := some 0, data := some "compiled output" })] }

/-! ## Shared lemmas -/

theorem requests_append (xs ys : List Event) :
    requests (xs ++ ys) = requests xs ++ requests ys := by
  induction xs with
  | nil => rfl
  | cons x xs ih => cases x <;> simp [requests, ih]

theorem writes_append (xs ys : List Event) :
    writes (xs ++ ys) = writes xs ++ writes ys := by
  induction xs with
  | nil => rfl
  | cons x xs ih => cases x <;> simp [writes, ih]

theorem sleeps_append (xs ys : List Event) :
    sleeps (xs ++ ys) = sleeps xs ++ sleeps ys := by
  induction xs with
  | nil => rfl
  | cons x xs ih => cases x <;> simp [sleeps, ih]

theorem logs_append (xs ys : List Event) :
    logs (xs ++ ys) = logs xs ++ logs ys := by
  induction xs with
  | nil => rfl
  | cons x xs ih => cases x <;> simp [logs, ih]

theorem main_missing (w : World)
    (h : w.argv2 = none ∨ ∃ p, w.argv2 = some p ∧ w.fs.existsSync p = false) :
    main w = { events := [Event.log (LogLine.notFound w.argv2)], fs := w.fs,
               outcome := Outcome.exited 1 } := by
  rcases h with h | ⟨p, hp, hex⟩
  · simp [main, h]
  · simp [main, hp, hex]

theorem main_read (w : World) (p src : String) (hp : w.argv2 = some p) (hne : p ≠ "")
    (hex : w.fs.existsSync p = true) (hrd : w.fs.readFileSync p = some src) :
    main w =
      match w.submit with
      | Reply.raised =>
        { events := [Event.log LogLine.uploading, Event.post (submitRequest src)], fs := w.fs,
          outcome := Outcome.rejected }
      | Reply.resolved status body =>
        if status ≠ 200 then
          { events := [Event.log LogLine.uploading, Event.post (submitRequest src),
              Event.log (LogLine.statusError status)], fs := w.fs, outcome := Outcome.exited 0 }
        else
          match body with
          | none =>
            { events := [Event.log LogLine.uploading, Event.post (submitRequest src)],
              fs := w.fs, outcome := Outcome.rejected }
          | some b =>
            if ¬ looseEq b.code 0 then
              { events := [Event.log LogLine.uploading, Event.post (submitRequest src),
                  Event.log (LogLine.submitDataError b)], fs := w.fs,
                outcome := Outcome.exited 0 }
            else
              match b.data with
              | none =>
                { events := [Event.log LogLine.uploading, Event.post (submitRequest src)],
                  fs := w.fs, outcome := Outcome.rejected }
              | some filename =>
                { events := Event.log LogLine.uploading :: Event.post (submitRequest src) ::
                    Event.log LogLine.uploaded :: (pollLoop filename w.fs w.polls).events,
                  fs := (pollLoop filename w.fs w.polls).fs,
                  outcome := (pollLoop filename w.fs w.polls).outcome } := by
  simp only [main, hp, hne, hex, hrd, false_or, Bool.true_eq_false, if_false]
  rcases w.submit with _ | ⟨status, body⟩
  · rfl
  · by_cases hst : status = 200
    · subst hst
      rcases body with _ | b
      · simp
      · by_cases hc : looseEq b.code 0 = true
        · rcases hd : b.data with _ | fn <;> simp [hc]
        · simp [hc]
    · simp [hst]

theorem main_accepted (w : World) (p src : String) (b : SubmitBody) (fn : Option String)
    (hp : w.argv2 = some p) (hne : p ≠ "") (hex : w.fs.existsSync p = true)
    (hrd : w.fs.readFileSync p = some src) (hs : w.submit = Reply.resolved 200 (some b))
    (hc : looseEq b.code 0 = true) (hd : b.data = some fn) :
    main w =
      { events := Event.log LogLine.uploading :: Event.post (submitRequest src) ::
          Event.log LogLine.uploaded :: (pollLoop fn w.fs w.polls).events,
        fs := (pollLoop fn w.fs w.polls).fs,
        outcome := (pollLoop fn w.fs w.polls).outcome } := by
  rw [main_read w p src hp hne hex hrd, hs]
  simp [hc, hd]

theorem pollLoop_nil (fn : Option String) (fs : FileSystem) :
    pollLoop fn fs [] =
      { events := [Event.post (statusRequest fn)], fs := fs, outcome := Outcome.polling } := rfl

theorem pollLoop_cons_done (fn : Option String) (fs : FileSystem) (reply : Reply PollBody)
    (rest : List (Reply PollBody)) (h : (pollStep fn fs reply).flow = Flow.done) :
    pollLoop fn fs (reply :: rest) =
      { events := (pollStep fn fs reply).events, fs := (pollStep fn fs reply).fs,
        outcome := Outcome.returned } := by
  simp [pollLoop, h]

theorem pollLoop_cons_more (fn : Option String) (fs : FileSystem) (reply : Reply PollBody)
    (rest : List (Reply PollBody)) (h : (pollStep fn fs reply).flow ≠ Flow.done) :
    pollLoop fn fs (reply :: rest) =
      { events := (pollStep fn fs reply).events ++
          (pollLoop fn (pollStep fn fs reply).fs rest).events,
        fs := (pollLoop fn (pollStep fn fs reply).fs rest).fs,
        outcome := (pollLoop fn (pollStep fn fs reply).fs rest).outcome } := by
  cases hf : (pollStep fn fs reply).flow with
  | done => exact absurd hf h
  | next => simp [pollLoop, hf]
  | caught => simp [pollLoop, hf]

/-- What one iteration does, by the reply it gets. -/
theorem pollStep_raised (fn : Option String) (fs : FileSystem) :
    pollStep fn fs Reply.raised =
      { events := [Event.post (statusRequest fn)], fs := fs, flow := Flow.caught } := rfl

theorem pollStep_pending (fn : Option String) (fs : FileSystem) (reply : Reply PollBody)
    (h : isPending reply = true) :
    pollStep fn fs reply =
      { events := [Event.post (statusRequest fn), Event.sleep 2000], fs := fs,
        flow := Flow.next } := by
  rcases reply with _ | ⟨status, _ | b⟩
  · simp [isPending] at h
  · simp [isPending] at h
  · rcases b with ⟨_ | c, d⟩
    · simp [isPending, looseEq] at h
    · simp [isPending, looseEq] at h
      obtain ⟨h1, h2⟩ := h
      subst h1 h2
      simp [pollStep, looseEq, sleep]

theorem completes_isDone (fn : Option String) (fs : FileSystem) (reply : Reply PollBody)
    (h : completes fn fs reply = true) : isDone reply = true := by
  rcases reply with _ | ⟨status, _ | b⟩
  · simp [completes] at h
  · simp [completes] at h
  · simp only [completes, Bool.and_eq_true] at h
    simp [isDone, h.1.1, h.1.2]

theorem pollStep_completes (fn : Option String) (fs : FileSystem) (reply : Reply PollBody)
    (h : completes fn fs reply = true) :
    ∃ b content fs', reply = Reply.resolved 200 (some b) ∧ looseEq b.code 0 = true ∧
      b.data = some content ∧ fs.writable (outputPath fn) content = true ∧
      fs.writeFileSync (outputPath fn) (some content) = some fs' ∧
      pollStep fn fs reply =
        { events := [Event.post (statusRequest fn), Event.log (LogLine.writing (outputPath fn)),
            Event.writeFile (outputPath fn) content],
          fs := fs', flow := Flow.done } := by
  rcases reply with _ | ⟨status, _ | b⟩
  · simp [completes] at h
  · simp [completes] at h
  · rcases b with ⟨_ | c, _ | content⟩
    · simp [completes, looseEq] at h
    · simp [completes, looseEq] at h
    · simp [completes, looseEq] at h
    · simp [completes, looseEq] at h
      obtain ⟨⟨h1, h2⟩, h3⟩ := h
      subst h1 h2
      simp [pollStep, looseEq, FileSystem.writeFileSync, h3]

theorem pollStep_done_raises (fn : Option String) (fs : FileSystem) (reply : Reply PollBody)
    (h : isDone reply = true) (hc : completes fn fs reply = false) :
    ∃ b, reply = Reply.resolved 200 (some b) ∧ looseEq b.code 0 = true ∧
      fs.writeFileSync (outputPath fn) b.data = none ∧
      pollStep fn fs reply =
        { events := [Event.post (statusRequest fn), Event.log (LogLine.writing (outputPath fn)),
            Event.writeFileRaised (outputPath fn) b.data],
          fs := fs, flow := Flow.caught } := by
  rcases reply with _ | ⟨status, _ | b⟩
  · simp [isDone] at h
  · simp [isDone] at h
  · rcases b with ⟨_ | c, _ | content⟩
    · simp [isDone, looseEq] at h
    · simp [isDone, looseEq] at h
    · simp [isDone, looseEq] at h
      obtain ⟨h1, h2⟩ := h
      subst h1 h2
      simp [pollStep, looseEq, FileSystem.writeFileSync]
    · simp [isDone, looseEq] at h
      obtain ⟨h1, h2⟩ := h
      subst h1 h2
      simp [completes, looseEq] at hc
      simp [pollStep, looseEq, FileSystem.writeFileSync, hc]

/-- An iteration whose reply is neither "done" nor "pending" performs its
request and at most one log line, and goes on. -/
theorem pollStep_other (fn : Option String) (fs : FileSystem) (reply : Reply PollBody)
    (hd : isDone reply = false) (hp : isPending reply = false) :
    (pollStep fn fs reply).fs = fs ∧ (pollStep fn fs reply).flow ≠ Flow.done ∧
    ((pollStep fn fs reply).events = [Event.post (statusRequest fn)] ∨
      ∃ l, (pollStep fn fs reply).events = [Event.post (statusRequest fn), Event.log l]) ∧
    ((pollStep fn fs reply).flow = Flow.caught →
      (pollStep fn fs reply).events = [Event.post (statusRequest fn)]) := by
  rcases reply with _ | ⟨status, _ | b⟩
  · simp [pollStep]
  · by_cases hst : status = 200 <;> simp [pollStep, hst]
  · by_cases hst : status = 200
    · subst hst
      rcases b with ⟨_ | c, d⟩
      · simp [pollStep, looseEq]
      · simp [isDone, isPending, looseEq] at hd hp
        by_cases h1 : c = -1 <;> simp [pollStep, looseEq, hd, hp, h1]
    · simp [pollStep, hst]

theorem pollLoop_pending_then_done (fn : Option String) (fs : FileSystem) (d : String)
    (hw : fs.writable (outputPath fn) d = true) (pend : List (Reply PollBody))
    (hpend : ∀ r ∈ pend, isPending r = true) :
    (pollLoop fn fs (pend ++ [Reply.resolved 200 (some { code := some 0, data := some d })])).events =
        (List.replicate pend.length
          [Event.post (statusRequest fn), Event.sleep 2000]).flatten ++
        [Event.post (statusRequest fn), Event.log (LogLine.writing (outputPath fn)),
         Event.writeFile (outputPath fn) d] ∧
    (pollLoop fn fs (pend ++ [Reply.resolved 200 (some { code := some 0, data := some d })])).outcome =
        Outcome.returned ∧
    fs.writeFileSync (outputPath fn) (some d) =
      some (pollLoop fn fs
        (pend ++ [Reply.resolved 200 (some { code := some 0, data := some d })])).fs := by
  induction pend with
  | nil =>
    simp [pollLoop, pollStep, looseEq, FileSystem.writeFileSync, hw]
  | cons r rest ih =>
    have hr : isPending r = true := hpend r (List.mem_cons_self _ _)
    have ih' := ih (fun x hx => hpend x (List.mem_cons_of_mem _ hx))
    have hs := pollStep_pending fn fs r hr
    have hflow : (pollStep fn fs r).flow ≠ Flow.done := by rw [hs]; simp
    rw [List.cons_append, pollLoop_cons_more fn fs r _ hflow, hs]
    simp only [List.length_cons, List.replicate_succ, List.flatten_cons]
    refine ⟨?_, ih'.2.1, ih'.2.2⟩
    rw [ih'.1]
    simp

theorem looseEq_iff (v : Option Int) (n : Int) : looseEq v n = true ↔ v = some n := by
  cases v <;> simp [looseEq]

theorem isPending_not_isDone (reply : Reply PollBody) (h : isPending reply = true) :
    isDone reply = false := by
  rcases reply with _ | ⟨status, _ | ⟨_ | c, d⟩⟩ <;> simp_all [isPending, isDone, looseEq]

/-- The four kinds of iteration: the write succeeds; the write raises; the reply
is "still compiling"; anything else. -/
theorem pollStep_kinds (fn : Option String) (fs : FileSystem) (reply : Reply PollBody) :
    (∃ b content fs', reply = Reply.resolved 200 (some b) ∧ b.code = some 0 ∧
      b.data = some content ∧ completes fn fs reply = true ∧
      fs.writeFileSync (outputPath fn) (some content) = some fs' ∧
      pollStep fn fs reply =
        { events := [Event.post (statusRequest fn), Event.log (LogLine.writing (outputPath fn)),
            Event.writeFile (outputPath fn) content],
          fs := fs', flow := Flow.done }) ∨
    (∃ b, reply = Reply.resolved 200 (some b) ∧ b.code = some 0 ∧
      completes fn fs reply = false ∧ isPending reply = false ∧
      fs.writeFileSync (outputPath fn) b.data = none ∧
      pollStep fn fs reply =
        { events := [Event.post (statusRequest fn), Event.log (LogLine.writing (outputPath fn)),
            Event.writeFileRaised (outputPath fn) b.data],
          fs := fs, flow := Flow.caught }) ∨
    (isPending reply = true ∧ completes fn fs reply = false ∧
      pollStep fn fs reply =
        { events := [Event.post (statusRequest fn), Event.sleep 2000], fs := fs,
          flow := Flow.next }) ∨
    (isPending reply = false ∧ isDone reply = false ∧ completes fn fs reply = false ∧
      (pollStep fn fs reply).fs = fs ∧ (pollStep fn fs reply).flow ≠ Flow.done ∧
      ((pollStep fn fs reply).events = [Event.post (statusRequest fn)] ∨
        ∃ l, (pollStep fn fs reply).events = [Event.post (statusRequest fn), Event.log l]) ∧
      ((pollStep fn fs reply).flow = Flow.caught →
        (pollStep fn fs reply).events = [Event.post (statusRequest fn)] ∧
        (reply = Reply.raised ∨ reply = Reply.resolved 200 none))) := by
  have hnc : isDone reply = false → completes fn fs reply = false := by
    intro hd
    cases hc : completes fn fs reply
    · rfl
    · rw [completes_isDone fn fs reply hc] at hd; exact absurd hd (by simp)
  by_cases hc : completes fn fs reply = true
  · obtain ⟨b, content, fs', h1, h2, h3, _, h5, h6⟩ := pollStep_completes fn fs reply hc
    exact Or.inl ⟨b, content, fs', h1, (looseEq_iff _ _).1 h2, h3, hc, h5, h6⟩
  · have hc' : completes fn fs reply = false := by simpa using hc
    by_cases hd : isDone reply = true
    · obtain ⟨b, h1, h2, h3, h4⟩ := pollStep_done_raises fn fs reply hd hc'
      have hp : isPending reply = false := by
        cases h : isPending reply
        · rfl
        · rw [isPending_not_isDone reply h] at hd; exact absurd hd (by simp)
      exact Or.inr (Or.inl ⟨b, h1, (looseEq_iff _ _).1 h2, hc', hp, h3, h4⟩)
    · have hd' : isDone reply = false := by simpa using hd
      by_cases hp : isPending reply = true
      · exact Or.inr (Or.inr (Or.inl ⟨hp, hc', pollStep_pending fn fs reply hp⟩))
      · have hp' : isPending reply = false := by simpa using hp
        obtain ⟨h1, h2, h3, h4⟩ := pollStep_other fn fs reply hd' hp'
        refine Or.inr (Or.inr (Or.inr ⟨hp', hd', hc', h1, h2, h3, ?_⟩))
        intro hcaught
        refine ⟨h4 hcaught, ?_⟩
        rcases reply with _ | ⟨status, _ | b⟩
        · exact Or.inl rfl
        · by_cases hst : status = 200
          · subst hst; exact Or.inr rfl
          · simp [pollStep, hst] at hcaught
        · exfalso
          by_cases hst : status = 200
          · subst hst
            rcases b with ⟨_ | c, d⟩
            · simp [pollStep, looseEq] at hcaught
            · simp [isDone, isPending, looseEq] at hd' hp'
              by_cases h1 : c = -1 <;> simp [pollStep, looseEq, hd', hp', h1] at hcaught
          · simp [pollStep, hst] at hcaught

theorem pollStep_flow_done_iff (fn : Option String) (fs : FileSystem) (reply : Reply PollBody) :
    (pollStep fn fs reply).flow = Flow.done ↔ completes fn fs reply = true := by
  rcases pollStep_kinds fn fs reply with ⟨b, c, fs', _, _, _, hc, _, hs⟩ |
    ⟨b, _, _, hc, _, _, hs⟩ | ⟨_, hc, hs⟩ | ⟨_, _, hc, _, hf, _⟩
  · simp [hs, hc]
  · simp [hs, hc]
  · simp [hs, hc]
  · simp [hf, hc]

theorem pollStep_fs_of_not_done (fn : Option String) (fs : FileSystem) (reply : Reply PollBody)
    (h : (pollStep fn fs reply).flow ≠ Flow.done) : (pollStep fn fs reply).fs = fs := by
  rcases pollStep_kinds fn fs reply with ⟨b, c, fs', _, _, _, hc, _, hs⟩ |
    ⟨b, _, _, hc, _, _, hs⟩ | ⟨_, hc, hs⟩ | ⟨_, _, hc, hfs, _, _⟩
  · rw [hs] at h; exact absurd rfl h
  · rw [hs]
  · rw [hs]
  · exact hfs

/-- Every iteration issues exactly one request, the status request for the job
identifier, before anything else. -/
theorem pollStep_requests (fn : Option String) (fs : FileSystem) (reply : Reply PollBody) :
    requests (pollStep fn fs reply).events = [statusRequest fn] ∧
    ∃ tl, (pollStep fn fs reply).events = Event.post (statusRequest fn) :: tl := by
  rcases pollStep_kinds fn fs reply with ⟨b, c, fs', _, _, _, _, _, hs⟩ |
    ⟨b, _, _, _, _, _, hs⟩ | ⟨_, _, hs⟩ | ⟨_, _, _, _, _, h | ⟨l, h⟩, _⟩ <;>
  first
  | (rw [hs]; simp [requests])
  | (rw [h]; simp [requests])

theorem pollStep_sleeps (fn : Option String) (fs : FileSystem) (reply : Reply PollBody) :
    sleeps (pollStep fn fs reply).events = if isPending reply = true then [2000] else [] := by
  rcases pollStep_kinds fn fs reply with ⟨b, c, fs', hr, hcode, _, _, _, hs⟩ |
    ⟨b, _, _, _, hp, _, hs⟩ | ⟨hp, _, hs⟩ | ⟨hp, _, _, _, _, h | ⟨l, h⟩, _⟩
  · have hp : isPending reply = false := by
      subst hr; simp [isPending, looseEq, hcode]
    rw [hs]; simp [sleeps, hp]
  · rw [hs]; simp [sleeps, hp]
  · rw [hs]; simp [sleeps, hp]
  · rw [h]; simp [sleeps, hp]
  · rw [h]; simp [sleeps, hp]

theorem pollStep_writes_of_not_done (fn : Option String) (fs : FileSystem)
    (reply : Reply PollBody) (h : (pollStep fn fs reply).flow ≠ Flow.done) :
    writes (pollStep fn fs reply).events = [] := by
  rcases pollStep_kinds fn fs reply with ⟨b, c, fs', _, _, _, _, _, hs⟩ |
    ⟨b, _, _, _, _, _, hs⟩ | ⟨_, _, hs⟩ | ⟨_, _, _, _, _, h' | ⟨l, h'⟩, _⟩
  · rw [hs] at h; exact absurd rfl h
  · rw [hs]; simp [writes]
  · rw [hs]; simp [writes]
  · rw [h']; simp [writes]
  · rw [h']; simp [writes]

theorem pollLoop_head (fn : Option String) (fs : FileSystem) (polls : List (Reply PollBody)) :
    ∃ tl, (pollLoop fn fs polls).events = Event.post (statusRequest fn) :: tl := by
  cases polls with
  | nil => exact ⟨[], rfl⟩
  | cons r rest =>
    obtain ⟨tl, htl⟩ := (pollStep_requests fn fs r).2
    by_cases hf : (pollStep fn fs r).flow = Flow.done
    · rw [pollLoop_cons_done fn fs r rest hf]; exact ⟨tl, htl⟩
    · rw [pollLoop_cons_more fn fs r rest hf]
      exact ⟨tl ++ (pollLoop fn (pollStep fn fs r).fs rest).events, by simp [htl]⟩

theorem pollLoop_outcome (fn : Option String) (fs : FileSystem) (polls : List (Reply PollBody)) :
    (pollLoop fn fs polls).outcome = Outcome.returned ∨
    (pollLoop fn fs polls).outcome = Outcome.polling := by
  induction polls with
  | nil => exact Or.inr rfl
  | cons r rest ih =>
    by_cases hf : (pollStep fn fs r).flow = Flow.done
    · rw [pollLoop_cons_done fn fs r rest hf]; exact Or.inl rfl
    · rw [pollLoop_cons_more fn fs r rest hf, pollStep_fs_of_not_done fn fs r hf]
      exact ih

theorem pollLoop_returned_iff (fn : Option String) (fs : FileSystem)
    (polls : List (Reply PollBody)) :
    (pollLoop fn fs polls).outcome = Outcome.returned ↔
      ∃ r ∈ polls, completes fn fs r = true := by
  induction polls with
  | nil => simp [pollLoop]
  | cons r rest ih =>
    by_cases hf : (pollStep fn fs r).flow = Flow.done
    · rw [pollLoop_cons_done fn fs r rest hf]
      have := (pollStep_flow_done_iff fn fs r).1 hf
      simp [this]
    · rw [pollLoop_cons_more fn fs r rest hf, pollStep_fs_of_not_done fn fs r hf]
      have hc : completes fn fs r = false := by
        cases h : completes fn fs r
        · rfl
        · exact absurd ((pollStep_flow_done_iff fn fs r).2 h) hf
      simp [ih, hc]

/-- While the loop has not returned nothing has been written. -/
theorem pollLoop_polling_frame (fn : Option String) (fs : FileSystem)
    (polls : List (Reply PollBody))
    (h : (pollLoop fn fs polls).outcome ≠ Outcome.returned) :
    writes (pollLoop fn fs polls).events = [] ∧ (pollLoop fn fs polls).fs = fs ∧
    (requests (pollLoop fn fs polls).events).length = polls.length + 1 := by
  induction polls with
  | nil => simp [pollLoop, writes, requests]
  | cons r rest ih =>
    by_cases hf : (pollStep fn fs r).flow = Flow.done
    · rw [pollLoop_cons_done fn fs r rest hf] at h; exact absurd rfl h
    · rw [pollLoop_cons_more fn fs r rest hf, pollStep_fs_of_not_done fn fs r hf] at h ⊢
      obtain ⟨h1, h2, h3⟩ := ih h
      simp [writes_append, requests_append, pollStep_writes_of_not_done fn fs r hf, h1, h2, h3,
        (pollStep_requests fn fs r).1]

/-- A run of the loop that returned wrote once, the data of a "done" reply at the
output path, as its last effect. -/
theorem pollLoop_returned_frame (fn : Option String) (fs : FileSystem)
    (polls : List (Reply PollBody))
    (h : (pollLoop fn fs polls).outcome = Outcome.returned) :
    ∃ b content, Reply.resolved 200 (some b) ∈ polls ∧ b.code = some 0 ∧
      b.data = some content ∧
      writes (pollLoop fn fs polls).events = [(outputPath fn, content)] ∧
      fs.writeFileSync (outputPath fn) (some content) = some (pollLoop fn fs polls).fs := by
  induction polls with
  | nil => simp [pollLoop] at h
  | cons r rest ih =>
    by_cases hf : (pollStep fn fs r).flow = Flow.done
    · have hc := (pollStep_flow_done_iff fn fs r).1 hf
      obtain ⟨b, content, fs', hr, hcode, hdata, _, hwf, hs⟩ := pollStep_completes fn fs r hc
      refine ⟨b, content, by simp [hr], (looseEq_iff _ _).1 hcode, hdata, ?_, ?_⟩
      · rw [pollLoop_cons_done fn fs r rest hf, hs]; simp [writes]
      · rw [pollLoop_cons_done fn fs r rest hf, hs]; exact hwf
    · rw [pollLoop_cons_more fn fs r rest hf, pollStep_fs_of_not_done fn fs r hf] at h ⊢
      obtain ⟨b, content, hb, hc, hd, hwr, hwf⟩ := ih h
      refine ⟨b, content, List.mem_cons_of_mem _ hb, hc, hd, ?_, hwf⟩
      simp [writes_append, pollStep_writes_of_not_done fn fs r hf, hwr]

theorem pollLoop_stops_at_first_done (fn : Option String) (fs : FileSystem)
    (r : Reply PollBody) (hr : completes fn fs r = true)
    (post : List (Reply PollBody)) (pre : List (Reply PollBody))
    (hpre : ∀ x ∈ pre, completes fn fs x = false) :
    pollLoop fn fs (pre ++ r :: post) = pollLoop fn fs (pre ++ [r]) ∧
    (requests (pollLoop fn fs (pre ++ r :: post)).events).length = pre.length + 1 := by
  induction pre with
  | nil =>
    have hf : (pollStep fn fs r).flow = Flow.done := (pollStep_flow_done_iff fn fs r).2 hr
    simp only [List.nil_append, pollLoop_cons_done fn fs r _ hf, List.length_nil, zero_add,
      true_and]
    rw [(pollStep_requests fn fs r).1]
    rfl
  | cons x rest ih =>
    have hx : completes fn fs x = false := hpre x (List.mem_cons_self _ _)
    have hf : (pollStep fn fs x).flow ≠ Flow.done := by
      intro h
      have := (pollStep_flow_done_iff fn fs x).1 h
      rw [hx] at this
      exact Bool.false_ne_true this
    obtain ⟨h1, h2⟩ := ih (fun y hy => hpre y (List.mem_cons_of_mem _ hy))
    simp only [List.cons_append, pollLoop_cons_more fn fs x _ hf,
      pollStep_fs_of_not_done fn fs x hf, h1, requests_append, (pollStep_requests fn fs x).1,
      List.length_append, List.length_cons, List.length_nil, true_and]
    rw [← h1, h2]
    omega

theorem completes_iff (fn : Option String) (fs : FileSystem) (reply : Reply PollBody) :
    completes fn fs reply = true ↔
      ∃ b content, reply = Reply.resolved 200 (some b) ∧ b.code = some 0 ∧
        b.data = some content ∧ fs.writable (outputPath fn) content = true := by
  constructor
  · intro h
    obtain ⟨b, content, _, h1, h2, h3, h4, _, _⟩ := pollStep_completes fn fs reply h
    exact ⟨b, content, h1, (looseEq_iff _ _).1 h2, h3, h4⟩
  · rintro ⟨b, content, rfl, h2, h3, h4⟩
    simp [completes, looseEq, h2, h3, h4]

theorem answered_pollLoop_cons_more (fn : Option String) (fs : FileSystem)
    (r : Reply PollBody) (rest : List (Reply PollBody))
    (hf : (pollStep fn fs r).flow ≠ Flow.done) :
    answered (pollLoop fn fs (r :: rest)) = answered (pollLoop fn fs rest) + 1 := by
  rw [pollLoop_cons_more fn fs r rest hf, pollStep_fs_of_not_done fn fs r hf]
  obtain ⟨tl, htl⟩ := pollLoop_head fn fs rest
  simp only [answered, requests_append, (pollStep_requests fn fs r).1, htl, requests,
    List.length_append, List.length_cons, List.length_nil]
  split <;> omega

theorem pollLoop_sleeps (fn : Option String) (fs : FileSystem) (polls : List (Reply PollBody)) :
    sleeps (pollLoop fn fs polls).events =
      List.replicate
        ((polls.take (answered (pollLoop fn fs polls))).countP isPending) 2000 := by
  induction polls with
  | nil => simp [pollLoop, sleeps, answered]
  | cons r rest ih =>
    by_cases hf : (pollStep fn fs r).flow = Flow.done
    · have hd := completes_isDone fn fs r ((pollStep_flow_done_iff fn fs r).1 hf)
      have hp : isPending r = false := by
        cases h : isPending r
        · rfl
        · rw [isPending_not_isDone r h] at hd; exact absurd hd Bool.false_ne_true
      have ha : answered (pollLoop fn fs (r :: rest)) = 1 := by
        rw [pollLoop_cons_done fn fs r rest hf]
        simp [answered, (pollStep_requests fn fs r).1]
      rw [ha, pollLoop_cons_done fn fs r rest hf]
      simp [pollStep_sleeps, hp]
    · rw [answered_pollLoop_cons_more fn fs r rest hf, pollLoop_cons_more fn fs r rest hf,
        pollStep_fs_of_not_done fn fs r hf]
      simp only [sleeps_append, pollStep_sleeps, ih, List.take_succ_cons, List.countP_cons]
      by_cases hp : isPending r = true
      · simp [hp, List.replicate_succ]
      · simp [hp]

theorem main_empty_path (w : World) (h : w.argv2 = some "") :
    main w = { events := [Event.log (LogLine.notFound w.argv2)], fs := w.fs,
               outcome := Outcome.exited 1 } := by
  simp [main, h]

theorem main_unreadable (w : World) (p : String) (hp : w.argv2 = some p) (hne : p ≠ "")
    (hex : w.fs.existsSync p = true) (hrd : w.fs.readFileSync p = none) :
    main w = { events := [], fs := w.fs, outcome := Outcome.rejected } := by
  simp [main, hp, hne, hex, hrd]

theorem main_of_inputMissing (w : World) (h : inputMissing w) :
    main w = { events := [Event.log (LogLine.notFound w.argv2)], fs := w.fs,
               outcome := Outcome.exited 1 } := by
  rcases h with h | h | h
  · exact main_missing w (Or.inl h)
  · exact main_empty_path w h
  · exact main_missing w (Or.inr h)

theorem exitStatus_pollLoop (fn : Option String) (fs : FileSystem)
    (polls : List (Reply PollBody)) :
    exitStatus (pollLoop fn fs polls).outcome ≠ some 1 ∧
    (pollLoop fn fs polls).outcome ≠ Outcome.rejected ∧
    ∀ c, exitStatus (pollLoop fn fs polls).outcome = some c → c = 0 := by
  rcases pollLoop_outcome fn fs polls with h | h <;> simp [h, exitStatus]

/-- Runs whose input is present and readable, sorted by the answer to the
submission. -/
theorem main_present (w : World) (p src : String) (hp : w.argv2 = some p) (hne : p ≠ "")
    (hex : w.fs.existsSync p = true) (hrd : w.fs.readFileSync p = some src) :
    (raisesBeforePolling w p ∧
      main w = { events := [Event.log LogLine.uploading, Event.post (submitRequest src)],
                 fs := w.fs, outcome := Outcome.rejected }) ∨
    (¬ raisesBeforePolling w p ∧ ∃ line,
      main w = { events := [Event.log LogLine.uploading, Event.post (submitRequest src),
                   Event.log line],
                 fs := w.fs, outcome := Outcome.exited 0 }) ∨
    (¬ raisesBeforePolling w p ∧ ∃ b fn, w.submit = Reply.resolved 200 (some b) ∧
      b.code = some 0 ∧ b.data = some fn ∧
      main w = { events := Event.log LogLine.uploading :: Event.post (submitRequest src) ::
                   Event.log LogLine.uploaded :: (pollLoop fn w.fs w.polls).events,
                 fs := (pollLoop fn w.fs w.polls).fs,
                 outcome := (pollLoop fn w.fs w.polls).outcome }) := by
  rw [main_read w p src hp hne hex hrd]
  rcases hs : w.submit with _ | ⟨status, body⟩
  · exact Or.inl ⟨Or.inr (Or.inl hs), rfl⟩
  · by_cases hst : status = 200
    · subst hst
      rcases body with _ | b
      · exact Or.inl ⟨Or.inr (Or.inr (Or.inl hs)), by simp⟩
      · by_cases hc : looseEq b.code 0 = true
        · have hc' := (looseEq_iff _ _).1 hc
          rcases hd : b.data with _ | fn
          · exact Or.inl ⟨Or.inr (Or.inr (Or.inr ⟨b, hs, hc', hd⟩)), by simp [hc, hd]⟩
          · refine Or.inr (Or.inr ⟨?_, b, fn, rfl, hc', hd, by simp [hc, hd]⟩)
            simp [raisesBeforePolling, hrd, hs, hd]
        · refine Or.inr (Or.inl ⟨?_, LogLine.submitDataError b, by simp [hc]⟩)
          have hc' : b.code ≠ some 0 := fun h => hc ((looseEq_iff _ _).2 h)
          simp [raisesBeforePolling, hrd, hs, hc']
    · refine Or.inr (Or.inl ⟨?_, LogLine.statusError status, by simp [hst]⟩)
      simp [raisesBeforePolling, hrd, hs, hst]

theorem raisedWrites_append (xs ys : List Event) :
    raisedWrites (xs ++ ys) = raisedWrites xs ++ raisedWrites ys := by
  induction xs with
  | nil => rfl
  | cons x xs ih => cases x <;> simp [raisedWrites, ih]

theorem pollStep_raisedWrites (fn : Option String) (fs : FileSystem) (reply : Reply PollBody) :
    raisedWrites (pollStep fn fs reply).events = [] ∨
    ∃ b, reply = Reply.resolved 200 (some b) ∧ b.code = some 0 ∧
      raisedWrites (pollStep fn fs reply).events = [(outputPath fn, b.data)] := by
  rcases pollStep_kinds fn fs reply with ⟨b, c, fs', _, _, _, _, _, hs⟩ |
    ⟨b, hr, hcode, _, _, _, hs⟩ | ⟨_, _, hs⟩ | ⟨_, _, _, _, _, h | ⟨l, h⟩, _⟩
  · rw [hs]; simp [raisedWrites]
  · exact Or.inr ⟨b, hr, hcode, by rw [hs]; simp [raisedWrites]⟩
  · rw [hs]; simp [raisedWrites]
  · rw [h]; simp [raisedWrites]
  · rw [h]; simp [raisedWrites]

theorem pollLoop_raisedWrites (fn : Option String) (fs : FileSystem)
    (polls : List (Reply PollBody)) (path : String) (data : Option String)
    (h : (path, data) ∈ raisedWrites (pollLoop fn fs polls).events) :
    path = outputPath fn ∧
    ∃ b, Reply.resolved 200 (some b) ∈ polls ∧ b.code = some 0 ∧ b.data = data := by
  induction polls with
  | nil => simp [pollLoop, raisedWrites] at h
  | cons r rest ih =>
    have hstep : (path, data) ∈ raisedWrites (pollStep fn fs r).events →
        path = outputPath fn ∧
        ∃ b, Reply.resolved 200 (some b) ∈ r :: rest ∧ b.code = some 0 ∧ b.data = data := by
      intro hm
      rcases pollStep_raisedWrites fn fs r with h0 | ⟨b, hb, hc, h1⟩
      · rw [h0] at hm; simp at hm
      · rw [h1] at hm
        simp only [List.mem_singleton, Prod.mk.injEq] at hm
        exact ⟨hm.1, b, by simp [hb], hc, hm.2.symm⟩
    by_cases hf : (pollStep fn fs r).flow = Flow.done
    · rw [pollLoop_cons_done fn fs r rest hf] at h
      exact hstep h
    · rw [pollLoop_cons_more fn fs r rest hf, pollStep_fs_of_not_done fn fs r hf] at h
      simp only [raisedWrites_append, List.mem_append] at h
      rcases h with h | h
      · exact hstep h
      · obtain ⟨h1, b, hb, h2⟩ := ih h
        exact ⟨h1, b, List.mem_cons_of_mem _ hb, h2⟩

theorem pollLoop_requests (fn : Option String) (fs : FileSystem)
    (polls : List (Reply PollBody)) :
    ∃ k, 1 ≤ k ∧ k ≤ polls.length + 1 ∧
      requests (pollLoop fn fs polls).events = List.replicate k (statusRequest fn) := by
  induction polls with
  | nil => exact ⟨1, le_refl _, by simp, rfl⟩
  | cons r rest ih =>
    by_cases hf : (pollStep fn fs r).flow = Flow.done
    · refine ⟨1, le_refl _, by simp, ?_⟩
      rw [pollLoop_cons_done fn fs r rest hf, (pollStep_requests fn fs r).1]
      rfl
    · obtain ⟨k, hk1, hk2, hk⟩ := ih
      refine ⟨k + 1, by omega, by simp; omega, ?_⟩
      rw [pollLoop_cons_more fn fs r rest hf, pollStep_fs_of_not_done fn fs r hf]
      simp [requests_append, (pollStep_requests fn fs r).1, hk, List.replicate_succ]

theorem pollLoop_writes (fn : Option String) (fs : FileSystem)
    (polls : List (Reply PollBody)) :
    (writes (pollLoop fn fs polls).events = [] ∧ (pollLoop fn fs polls).fs = fs ∧
      (pollLoop fn fs polls).outcome ≠ Outcome.returned) ∨
    ∃ b content, Reply.resolved 200 (some b) ∈ polls ∧ b.code = some 0 ∧
      b.data = some content ∧
      writes (pollLoop fn fs polls).events = [(outputPath fn, content)] ∧
      fs.writeFileSync (outputPath fn) (some content) = some (pollLoop fn fs polls).fs ∧
      (pollLoop fn fs polls).outcome = Outcome.returned := by
  by_cases h : (pollLoop fn fs polls).outcome = Outcome.returned
  · obtain ⟨b, content, h1, h2, h3, h4, h5⟩ := pollLoop_returned_frame fn fs polls h
    exact Or.inr ⟨b, content, h1, h2, h3, h4, h5, h⟩
  · obtain ⟨h1, h2, _⟩ := pollLoop_polling_frame fn fs polls h
    exact Or.inl ⟨h1, h2, h⟩

/-- What a write that returns normally changes: the file the path denotes, and
nothing else. -/
theorem writeFileSync_frame (fs fs' : FileSystem) (path content : String)
    (h : fs.writeFileSync path (some content) = some fs') :
    fs'.resolve = fs.resolve ∧ fs'.accepts = fs.accepts ∧
    fs'.present (fs.resolve path) = true ∧ fs'.text (fs.resolve path) = some content ∧
    (∀ f, f ≠ fs.resolve path → fs'.present f = fs.present f ∧ fs'.text f = fs.text f) := by
  simp only [FileSystem.writeFileSync] at h
  split at h
  · rw [← Option.some.inj h]
    refine ⟨rfl, rfl, by simp, by simp, ?_⟩
    intro f hf
    simp [hf]
  · exact absurd h (by simp)

theorem segments_of_no_slash (l : List Char) (h : '/' ∉ l) : segments l = [l] := by
  induction l with
  | nil => rfl
  | cons c cs ih =>
    have hc : c ≠ '/' := fun e => h (by simp [e])
    have hcs : '/' ∉ cs := fun e => h (List.mem_cons_of_mem _ e)
    simp [segments, hc, ih hcs]

theorem locate_outputPath (name : String) (h : '/' ∉ name.data) :
    locate ("./" ++ name ++ ".js") = some [(name ++ ".js").data] := by
  have hdata : ("./" ++ name ++ ".js").data = '.' :: '/' :: (name.data ++ ['.', 'j', 's']) := by
    simp [String.data_append]
  have hno : '/' ∉ name.data ++ ['.', 'j', 's'] := by
    simp only [List.mem_append, not_or]
    exact ⟨h, by decide⟩
  have hseg : segments ('.' :: '/' :: (name.data ++ ['.', 'j', 's'])) =
      [['.'], name.data ++ ['.', 'j', 's']] := by
    have h1 : ('.' : Char) ≠ '/' := by decide
    simp [segments, h1, segments_of_no_slash _ hno]
  have hlen : (name.data ++ ['.', 'j', 's']).length = name.data.length + 3 := by simp
  have hn0 : name.data ++ ['.', 'j', 's'] ≠ [] := by
    intro e; rw [e] at hlen; simp at hlen
  have hn1 : name.data ++ ['.', 'j', 's'] ≠ ['.'] := by
    intro e; rw [e] at hlen; simp at hlen
  have hn2 : name.data ++ ['.', 'j', 's'] ≠ ['.', '.'] := by
    intro e; rw [e] at hlen; simp at hlen
  have hd : (name ++ ".js").data = name.data ++ ['.', 'j', 's'] := by
    simp [String.data_append]
  have hne : ¬ ('.' : Char) = '/' := by decide
  unfold locate
  rw [hdata, hseg, hd]
  simp [descend, hn0, hn1, hn2, hne]

/-- Either a run never reaches the poll loop, and then it writes nothing, or its
writes are those of the poll loop run for the job identifier of the accepted
submission. -/
theorem main_writes (w : World) :
    (writes (main w).events = [] ∧ raisedWrites (main w).events = [] ∧ (main w).fs = w.fs ∧
      (main w).outcome ≠ Outcome.returned) ∨
    ∃ sb fn, w.submit = Reply.resolved 200 (some sb) ∧ sb.data = some fn ∧
      writes (main w).events = writes (pollLoop fn w.fs w.polls).events ∧
      raisedWrites (main w).events = raisedWrites (pollLoop fn w.fs w.polls).events ∧
      (main w).fs = (pollLoop fn w.fs w.polls).fs ∧
      (main w).outcome = (pollLoop fn w.fs w.polls).outcome := by
  by_cases hmiss : inputMissing w
  · left; rw [main_of_inputMissing w hmiss]; simp [writes, raisedWrites]
  · rcases hp : w.argv2 with _ | p
    · exact absurd (Or.inl hp) hmiss
    · have hne : p ≠ "" := fun h => hmiss (Or.inr (Or.inl (by rw [hp, h])))
      have hex : w.fs.existsSync p = true := by
        cases h : w.fs.existsSync p
        · exact absurd (Or.inr (Or.inr ⟨p, hp, h⟩)) hmiss
        · rfl
      rcases hrd : w.fs.readFileSync p with _ | src
      · left; rw [main_unreadable w p hp hne hex hrd]; simp [writes, raisedWrites]
      · rcases main_present w p src hp hne hex hrd with ⟨_, h⟩ | ⟨_, line, h⟩ |
          ⟨_, sb, fn, hsub, _, hdata, h⟩
        · left; rw [h]; simp [writes, raisedWrites]
        · left; rw [h]; simp [writes, raisedWrites]
        · right
          refine ⟨sb, fn, hsub, hdata, ?_⟩
          rw [h]
          simp [writes, raisedWrites]

/-! ## C1 -/

/-- C1 fails as stated: in the `job42` scenario with a working directory in which
`fs.writeFileSync` raises, the client sleeps twice and attempts the write, but the
exception is swallowed by `catch (e) {}`: no file is written and the loop does not
terminate, a fourth status request is issued instead. The same happens in a
writable working directory for the job identifier `out/job42`, the directory
`out` not existing. -/
theorem job42_unwritable_keeps_polling :
    sleeps (main (job42World readOnlyFs)).events = [2000, 2000] ∧
    writes (main (job42World readOnlyFs)).events = [] ∧
    raisedWrites (main (job42World readOnlyFs)).events =
      [("./job42.js", some "compiled output")] ∧
    (main (job42World readOnlyFs)).outcome = Outcome.polling ∧
    (main (job42World readOnlyFs)).outcome ≠ Outcome.returned ∧
    (requests (main (job42World readOnlyFs)).events).length = 5 ∧
    (main (job42World readOnlyFs)).fs.existsSync "./job42.js" = false ∧
    sleeps (main subdirJobWorld).events = [2000, 2000] ∧
    writes (main subdirJobWorld).events = [] ∧
    raisedWrites (main subdirJobWorld).events =
      [("./out/job42.js", some "compiled output")] ∧
    (main subdirJobWorld).outcome = Outcome.polling := by
  decide

/-- C1 (amended): with an existing readable input, a submission answered
`{status 200, code 0, data.filename = f}`, poll replies that are `n` times
`{status 200, code 1}` and then `{status 200, code 0, data = d}`, and a write
of `./f.js` that does not raise, the client performs exactly: the upload, `n`
rounds of status request and 2000 ms sleep, one more status request, and one
write of `d` to `"./" + f + ".js"`; then the loop has terminated and the file
holds `d`. -/
theorem pending_then_done_writes_artifact (w : World) (p src f d : String) (n : Nat)
    (pend : List (Reply PollBody))
    (hp : w.argv2 = some p) (hne : p ≠ "") (hex : w.fs.existsSync p = true)
    (hrd : w.fs.readFileSync p = some src)
    (hs : w.submit = Reply.resolved 200 (some { code := some 0, data := some (some f) }))
    (hlen : pend.length = n)
    (hpend : ∀ r ∈ pend, ∃ x, r = Reply.resolved 200 (some { code := some 1, data := x }))
    (hpolls : w.polls = pend ++ [Reply.resolved 200 (some { code := some 0, data := some d })])
    (hw : w.fs.writable ("./" ++ f ++ ".js") d = true) :
    (main w).events =
        [Event.log LogLine.uploading, Event.post (submitRequest src),
         Event.log LogLine.uploaded] ++
        (List.replicate n [Event.post (statusRequest (some f)), Event.sleep 2000]).flatten ++
        [Event.post (statusRequest (some f)), Event.log (LogLine.writing ("./" ++ f ++ ".js")),
         Event.writeFile ("./" ++ f ++ ".js") d] ∧
    sleeps (main w).events = List.replicate n 2000 ∧
    writes (main w).events = [("./" ++ f ++ ".js", d)] ∧
    (main w).outcome = Outcome.returned ∧
    (main w).fs.existsSync ("./" ++ f ++ ".js") = true ∧
    (main w).fs.readFileSync ("./" ++ f ++ ".js") = some d := by
  have hpend' : ∀ r ∈ pend, isPending r = true := by
    intro r hr
    obtain ⟨x, rfl⟩ := hpend r hr
    rfl
  have hw' : w.fs.writable (outputPath (some f)) d = true := hw
  obtain ⟨hev, hout, hfs⟩ := pollLoop_pending_then_done (some f) w.fs d hw' pend hpend'
  have hm := main_accepted w p src _ (some f) hp hne hex hrd hs rfl rfl
  rw [hpolls] at hm
  have hevents : (main w).events =
      [Event.log LogLine.uploading, Event.post (submitRequest src),
       Event.log LogLine.uploaded] ++
      (List.replicate n [Event.post (statusRequest (some f)), Event.sleep 2000]).flatten ++
      [Event.post (statusRequest (some f)), Event.log (LogLine.writing ("./" ++ f ++ ".js")),
       Event.writeFile ("./" ++ f ++ ".js") d] := by
    rw [hm]
    simp only [hev, hlen]
    simp [outputPath, interpolate]
  have hsl : ∀ k : Nat, sleeps
      (List.replicate k [Event.post (statusRequest (some f)), Event.sleep 2000]).flatten =
      List.replicate k 2000 := by
    intro k
    induction k with
    | zero => rfl
    | succ k ih => simp [List.replicate_succ, sleeps_append, sleeps, ih]
  have hwr : ∀ k : Nat, writes
      (List.replicate k [Event.post (statusRequest (some f)), Event.sleep 2000]).flatten =
      [] := by
    intro k
    induction k with
    | zero => rfl
    | succ k ih => simp [List.replicate_succ, writes_append, writes, ih]
  refine ⟨hevents, ?_, ?_, ?_, ?_, ?_⟩
  · rw [hevents]; simp [sleeps_append, sleeps, hsl]
  · rw [hevents]; simp [writes_append, writes, hwr]
  · rw [hm]; exact hout
  · rw [hm]
    simp only [FileSystem.writeFileSync, hw', if_true, Option.some.injEq] at hfs
    rw [← hfs]
    simp [FileSystem.existsSync, outputPath, interpolate]
  · rw [hm]
    simp only [FileSystem.writeFileSync, hw', if_true, Option.some.injEq] at hfs
    rw [← hfs]
    simp [FileSystem.readFileSync, outputPath, interpolate]

/-- C1 (amended) at `f = "job42"`, `n = 2`, `d = "compiled output"` on a file
system that accepts the write. -/
theorem pending_then_done_writes_artifact_job42 :
    sleeps (main (job42World demoFs)).events = [2000, 2000] ∧
    writes (main (job42World demoFs)).events = [("./job42.js", "compiled output")] ∧
    (main (job42World demoFs)).outcome = Outcome.returned ∧
    (main (job42World demoFs)).fs.readFileSync "./job42.js" = some "compiled output" := by
  have h := pending_then_done_writes_artifact (job42World demoFs) "input.js" "var a = 1;"
    "job42" "compiled output" 2
    [Reply.resolved 200 (some { code := some 1, data := none }),
     Reply.resolved 200 (some { code := some 1, data := none })]
    rfl (by decide) (by decide) (by decide) rfl rfl
    (by intro r hr; simp at hr; exact ⟨none, hr⟩) rfl (by decide)
  exact ⟨h.2.1, h.2.2.1, h.2.2.2.1, h.2.2.2.2.2⟩

/-! ## C2 -/

/-- C2 fails as stated: a reply whose body has `code == 0` does not end the loop
when its status is not 200 (a 201 answer resolves, and the status check comes
first and continues), nor when its status is 200 but `fs.writeFileSync` raises,
be it because the directory is read-only or because `data` is not a string (the
exception is swallowed). In the three runs the client is still polling and has
written nothing. -/
theorem code_zero_reply_need_not_terminate :
    settle (Exchange.answered 201
        (some ({ code := some 0, data := some "compiled output" } : PollBody))) =
      Reply.resolved 201 (some { code := some 0, data := some "compiled output" }) ∧
    hasCodeZero
      (Reply.resolved 201 (some { code := some 0, data := some "compiled output" })) = true ∧
    (pollLoop (some "job42") demoFs
      [Reply.resolved 201 (some { code := some 0, data := some "compiled output" })]).outcome =
        Outcome.polling ∧
    writes (pollLoop (some "job42") demoFs
      [Reply.resolved 201 (some { code := some 0, data := some "compiled output" })]).events =
        [] ∧
    hasCodeZero
      (Reply.resolved 200 (some { code := some 0, data := some "compiled output" })) = true ∧
    (pollLoop (some "job42") readOnlyFs
      [Reply.resolved 200 (some { code := some 0, data := some "compiled output" })]).outcome =
        Outcome.polling ∧
    writes (pollLoop (some "job42") readOnlyFs
      [Reply.resolved 200 (some { code := some 0, data := some "compiled output" })]).events =
        [] ∧
    hasCodeZero (Reply.resolved 200 (some { code := some 0, data := none })) = true ∧
    (pollLoop (some "job42") demoFs
      [Reply.resolved 200 (some { code := some 0, data := none })]).outcome =
        Outcome.polling ∧
    writes (pollLoop (some "job42") demoFs
      [Reply.resolved 200 (some { code := some 0, data := none })]).events = [] := by
  decide

/-- C2 (amended): for every job identifier and every sequence of poll outcomes,
the loop terminates if and only if some reply of the sequence completes the job:
it has status 200, `code == 0`, and a string `data` whose write at
`./<jobId>.js` does not raise. The loop then terminates at the first such reply
(later outcomes are not consumed, and the number of status requests is the
position of that reply). Otherwise the client is still polling. In particular
after any number of replies that all carry code -1 or code 1 the client is still
polling, has issued one status request more than it got replies, and has
written nothing. -/
theorem poll_loop_returns_iff_done_reply (fn : Option String) (fs : FileSystem)
    (polls : List (Reply PollBody)) :
    (∀ r, completes fn fs r = true ↔
      ∃ b content, r = Reply.resolved 200 (some b) ∧ b.code = some 0 ∧
        b.data = some content ∧ fs.writable (outputPath fn) content = true) ∧
    ((pollLoop fn fs polls).outcome = Outcome.returned ↔
      ∃ r ∈ polls, completes fn fs r = true) ∧
    ((pollLoop fn fs polls).outcome = Outcome.returned ∨
      (pollLoop fn fs polls).outcome = Outcome.polling) ∧
    (∀ pre r post, polls = pre ++ r :: post → (∀ x ∈ pre, completes fn fs x = false) →
      completes fn fs r = true →
      pollLoop fn fs polls = pollLoop fn fs (pre ++ [r]) ∧
      (requests (pollLoop fn fs polls).events).length = pre.length + 1) ∧
    ((∀ r ∈ polls, ∃ status b, r = Reply.resolved status (some b) ∧
        (b.code = some (-1) ∨ b.code = some 1)) →
      (pollLoop fn fs polls).outcome = Outcome.polling ∧
      writes (pollLoop fn fs polls).events = [] ∧
      (pollLoop fn fs polls).fs = fs ∧
      (requests (pollLoop fn fs polls).events).length = polls.length + 1) := by
  refine ⟨completes_iff fn fs, pollLoop_returned_iff fn fs polls, pollLoop_outcome fn fs polls,
    ?_, ?_⟩
  · intro pre r post hpolls hpre hr
    subst hpolls
    exact pollLoop_stops_at_first_done fn fs r hr post pre hpre
  · intro hall
    have hnot : (pollLoop fn fs polls).outcome ≠ Outcome.returned := by
      intro h
      obtain ⟨r, hr, hc⟩ := (pollLoop_returned_iff fn fs polls).1 h
      obtain ⟨b, content, hrb, hcode, _, _⟩ := (completes_iff fn fs r).1 hc
      obtain ⟨status, b', hrb', hb⟩ := hall r hr
      rw [hrb] at hrb'
      simp only [Reply.resolved.injEq, Option.some.injEq] at hrb'
      rw [← hrb'.2, hcode] at hb
      rcases hb with hb | hb <;> simp at hb
    refine ⟨?_, pollLoop_polling_frame fn fs polls hnot⟩
    rcases pollLoop_outcome fn fs polls with h | h
    · exact absurd h hnot
    · exact h

/-- C2 (amended) on three replies with code -1: still polling, four status
requests issued, nothing written; and on a "done" reply without string data
followed by a complete one: the loop ends at the second. -/
theorem poll_loop_returns_iff_done_reply_examples :
    (pollLoop (some "job42") demoFs
      (List.replicate 3 (Reply.resolved 200 (some { code := some (-1), data := none })))).outcome =
        Outcome.polling ∧
    writes (pollLoop (some "job42") demoFs
      (List.replicate 3 (Reply.resolved 200 (some { code := some (-1), data := none })))).events =
        [] ∧
    (requests (pollLoop (some "job42") demoFs
      (List.replicate 3
        (Reply.resolved 200 (some { code := some (-1), data := none })))).events).length = 4 ∧
    (requests (pollLoop (some "job42") demoFs
      [Reply.resolved 200 (some { code := some 0, data := none }),
       Reply.resolved 200 (some { code := some 0, data := some "x" }),
       Reply.resolved 200 (some { code := some 0, data := some "y" })]).events).length = 2 := by
  have h := (poll_loop_returns_iff_done_reply (some "job42") demoFs
    (List.replicate 3 (Reply.resolved 200 (some { code := some (-1), data := none })))).2.2.2.2
    (by
      intro r hr
      exact ⟨200, { code := some (-1), data := none }, List.eq_of_mem_replicate hr, Or.inl rfl⟩)
  have h2 := (poll_loop_returns_iff_done_reply (some "job42") demoFs
    [Reply.resolved 200 (some { code := some 0, data := none }),
     Reply.resolved 200 (some { code := some 0, data := some "x" }),
     Reply.resolved 200 (some { code := some 0, data := some "y" })]).2.2.2.1
    [Reply.resolved 200 (some { code := some 0, data := none })]
    (Reply.resolved 200 (some { code := some 0, data := some "x" }))
    [Reply.resolved 200 (some { code := some 0, data := some "y" })]
    rfl (by decide) (by decide)
  exact ⟨h.1, h.2.1, h.2.2.2, h2.2⟩

/-! ## C3 -/

/-- C3: when the path argument is absent, or names a file that does not exist,
the client prints the "not find filepath" line and calls `process.exit(1)`:
that line is its only effect, so no request (submission or status) is issued
and no file is written, and the file system is as it was. -/
theorem missing_input_exits_one (w : World)
    (h : w.argv2 = none ∨ ∃ p, w.argv2 = some p ∧ w.fs.existsSync p = false) :
    (main w).outcome = Outcome.exited 1 ∧
    exitStatus (main w).outcome = some 1 ∧
    (main w).events = [Event.log (LogLine.notFound w.argv2)] ∧
    requests (main w).events = [] ∧
    writes (main w).events = [] ∧
    (main w).fs = w.fs := by
  rw [main_missing w h]
  simp [exitStatus, requests, writes]

/-- C3 at the path `/does/not/exist`. -/
theorem missing_input_exits_one_does_not_exist :
    (main missingWorld).outcome = Outcome.exited 1 ∧
    requests (main missingWorld).events = [] ∧
    writes (main missingWorld).events = [] := by
  have h := missing_input_exits_one missingWorld
    (Or.inr ⟨"/does/not/exist", rfl, by decide⟩)
  exact ⟨h.1, h.2.2.2.1, h.2.2.2.2.1⟩

/-! ## C4 -/

/-- C4 fails as stated: when the server answers the submission with status 500,
the awaited request rejects, so the check `status != 200` is never reached. The
run prints no "request status error" line and does not call `process.exit(0)`:
the exception leaves the async function. -/
theorem http500_submission_is_not_exit_zero :
    http500World.submit = Reply.raised ∧
    (main http500World).outcome = Outcome.rejected ∧
    (main http500World).outcome ≠ Outcome.exited 0 ∧
    exitStatus (main http500World).outcome = none ∧
    logs (main http500World).events = [LogLine.uploading] := by
  decide

/-- C4 (amended): with an existing readable input, when the server answers the
submission with a 2xx status other than 200, or with status 200 and a body whose
`code` is not 0 (a nonzero number, or no `code` at all), the client prints one
error line and calls `process.exit(0)`: the submission is the only request of
the run (no status request, no second submission), no file is written and the
file system is as it was. -/
theorem rejected_submission_exits_zero (w : World) (p src : String) (status : Int)
    (body : Option SubmitBody)
    (hp : w.argv2 = some p) (hne : p ≠ "") (hex : w.fs.existsSync p = true)
    (hrd : w.fs.readFileSync p = some src)
    (hs : w.submit = settle (Exchange.answered status body))
    (hrej : (200 ≤ status ∧ status < 300 ∧ status ≠ 200) ∨
      (status = 200 ∧ ∃ b, body = some b ∧ b.code ≠ some 0)) :
    (main w).outcome = Outcome.exited 0 ∧
    exitStatus (main w).outcome = some 0 ∧
    (∃ line, (main w).events =
      [Event.log LogLine.uploading, Event.post (submitRequest src), Event.log line]) ∧
    requests (main w).events = [submitRequest src] ∧
    writes (main w).events = [] ∧
    (main w).fs = w.fs := by
  have h2xx : 200 ≤ status ∧ status < 300 := by
    rcases hrej with ⟨h1, h2, _⟩ | ⟨h, _⟩
    · exact ⟨h1, h2⟩
    · subst h; decide
  have hset : w.submit = Reply.resolved status body := by
    rw [hs]; simp [settle, h2xx]
  rw [main_read w p src hp hne hex hrd, hset]
  by_cases hst : status = 200
  · rcases hrej with ⟨_, _, h⟩ | ⟨_, b, rfl, hb⟩
    · exact absurd hst h
    · have hc : looseEq b.code 0 = false := by
        rcases hcode : b.code with _ | c
        · rfl
        · have : c ≠ 0 := fun h0 => hb (by rw [hcode, h0])
          simp [looseEq, this]
      simp [hst, hc, exitStatus, requests, writes]
  · simp [hst, exitStatus, requests, writes]

/-- C4 (amended) at a submission answered with status 201. -/
theorem rejected_submission_exits_zero_status201 :
    (main http201World).outcome = Outcome.exited 0 ∧
    requests (main http201World).events = [submitRequest "var a = 1;"] ∧
    writes (main http201World).events = [] := by
  have h := rejected_submission_exits_zero http201World
    "input.js" "var a = 1;" 201 none rfl (by decide) (by decide) (by decide) rfl
    (Or.inl (by decide))
  exact ⟨h.1, h.2.2.2.1, h.2.2.2.2.1⟩

/-! ## C5 -/

/-- C5 fails as stated: a submission request that raises, and a 200 answer with
code 0 and no `data`, are not handled: the exception leaves the async function
(nothing catches it, nothing is printed about it) and the program sets no exit
status. The same happens for a path that exists and cannot be read, which the
claim sends to exit status 1: the three runs end in the same way, so no policy
of the runtime gives them the statuses 0, 0 and 1 that the claim states. -/
theorem submission_exception_not_handled :
    (main submitRaisesWorld).outcome = Outcome.rejected ∧
    exitStatus (main submitRaisesWorld).outcome = none ∧
    logs (main submitRaisesWorld).events = [LogLine.uploading] ∧
    (main noDataWorld).outcome = Outcome.rejected ∧
    logs (main noDataWorld).events = [LogLine.uploading] ∧
    (main directoryWorld).outcome = Outcome.rejected ∧
    (main directoryWorld).outcome ≠ Outcome.exited 1 ∧
    logs (main directoryWorld).events = [] := by
  decide

/-- C5 (amended): the program sets exit status 1 exactly when the path argument
is absent, empty or names a file that does not exist; whenever it sets a status
otherwise (exit after a rejected submission, or the end of the loop after the
"done" reply) the status is 0. An exception raised before the poll loop (by
reading the input file, by the submission request, by reading `code` of a `null`
body, or by an answer with code 0 and no `data`) is exactly what makes the async
function reject: the exception is not caught, nothing is printed about it
(the log holds at most the "upload codes" line), no file is written, and the
program sets no exit status. -/
theorem exit_status_by_outcome (w : World) :
    (exitStatus (main w).outcome = some 1 ↔ inputMissing w) ∧
    (∀ c, exitStatus (main w).outcome = some c → c = 0 ∨ c = 1) ∧
    ((main w).outcome = Outcome.rejected ↔
      ∃ p, w.argv2 = some p ∧ p ≠ "" ∧ w.fs.existsSync p = true ∧ raisesBeforePolling w p) ∧
    ((main w).outcome = Outcome.rejected →
      exitStatus (main w).outcome = none ∧
      (logs (main w).events = [] ∨ logs (main w).events = [LogLine.uploading]) ∧
      writes (main w).events = [] ∧ (main w).fs = w.fs) := by
  by_cases hm : inputMissing w
  · rw [main_of_inputMissing w hm]
    refine ⟨by simp [exitStatus, hm], by simp [exitStatus], ?_, by simp⟩
    simp only [false_iff, reduceCtorEq, not_exists, not_and]
    intro p hp hne hex
    rcases hm with h | h | ⟨q, hq, hqe⟩
    · rw [h] at hp; exact absurd hp (by simp)
    · rw [h] at hp; exact absurd (Option.some.inj hp).symm hne
    · rw [hq] at hp; rw [Option.some.inj hp, hex] at hqe; exact absurd hqe (by simp)
  · rcases hp : w.argv2 with _ | p
    · exact absurd (Or.inl hp) hm
    · have hne : p ≠ "" := fun h => hm (Or.inr (Or.inl (by rw [hp, h])))
      have hex : w.fs.existsSync p = true := by
        cases h : w.fs.existsSync p
        · exact absurd (Or.inr (Or.inr ⟨p, hp, h⟩)) hm
        · rfl
      have key : (∃ q, some p = some q ∧ q ≠ "" ∧ w.fs.existsSync q = true ∧
          raisesBeforePolling w q) ↔ raisesBeforePolling w p := by
        constructor
        · rintro ⟨q, hq, _, _, h⟩
          rw [Option.some.inj hq]; exact h
        · intro h
          exact ⟨p, rfl, hne, hex, h⟩
      rw [key]
      rcases hrd : w.fs.readFileSync p with _ | src
      · rw [main_unreadable w p hp hne hex hrd]
        have hr : raisesBeforePolling w p := Or.inl hrd
        simp [exitStatus, hm, hr, logs, writes]
      · rcases main_present w p src hp hne hex hrd with ⟨hr, h⟩ | ⟨hr, line, h⟩ |
          ⟨hr, b, fn, _, _, _, h⟩
        · rw [h]; simp [exitStatus, hm, hr, logs, writes]
        · rw [h]; simp [exitStatus, hm, hr]
        · rw [h]
          obtain ⟨h1, h2, h3⟩ := exitStatus_pollLoop fn w.fs w.polls
          refine ⟨by simp [h1, hm], fun c hc => Or.inl (h3 c hc), by simp [h2, hr], ?_⟩
          intro hrej
          exact absurd hrej h2

/-- C5 (amended) at a submission request that raises. -/
theorem exit_status_by_outcome_submit_raises :
    (main submitRaisesWorld).outcome = Outcome.rejected ∧
    exitStatus (main submitRaisesWorld).outcome = none ∧
    writes (main submitRaisesWorld).events = [] := by
  have h := (exit_status_by_outcome submitRaisesWorld).2.2.2 (by decide)
  exact ⟨by decide, h.1, h.2.2.1⟩

/-! ## C6 -/

/-- C6: in every run at most one call to `fs.writeFileSync` takes effect. When
one does, it answers a poll reply with status 200 and code 0: its path is
`"./" + jobId + ".js"`, `jobId` being the `data.filename` of the submission
answer, its content is the `data` of that reply, and the run has ended. The file
that this path denotes then exists and holds that content, whatever path it is
reached by, and every other file is as before: it exists as before and holds the
text it held, and paths denote the files they denoted. A run that has not
reached that point (input error, rejected or failed submission, still polling)
has written nothing and leaves the file system as it was. A call that raises
changes nothing, and targets the same path with the `data` of such a reply. -/
theorem single_write_frame (w : World) :
    (writes (main w).events).length ≤ 1 ∧
    (∀ path content, (path, content) ∈ writes (main w).events →
      (main w).outcome = Outcome.returned ∧
      (∃ sb fn pb, w.submit = Reply.resolved 200 (some sb) ∧ sb.data = some fn ∧
        path = "./" ++ interpolate fn ++ ".js" ∧
        Reply.resolved 200 (some pb) ∈ w.polls ∧ pb.code = some 0 ∧
        pb.data = some content) ∧
      (main w).fs.resolve = w.fs.resolve ∧
      (main w).fs.accepts = w.fs.accepts ∧
      (main w).fs.present (w.fs.resolve path) = true ∧
      (main w).fs.text (w.fs.resolve path) = some content ∧
      (∀ f, f ≠ w.fs.resolve path →
        (main w).fs.present f = w.fs.present f ∧ (main w).fs.text f = w.fs.text f) ∧
      (∀ q, w.fs.resolve q = w.fs.resolve path →
        (main w).fs.existsSync q = true ∧ (main w).fs.readFileSync q = some content) ∧
      (∀ q, w.fs.resolve q ≠ w.fs.resolve path →
        (main w).fs.existsSync q = w.fs.existsSync q ∧
        (main w).fs.readFileSync q = w.fs.readFileSync q)) ∧
    ((main w).outcome ≠ Outcome.returned →
      writes (main w).events = [] ∧ (main w).fs = w.fs) ∧
    (∀ path data, (path, data) ∈ raisedWrites (main w).events →
      ∃ sb fn pb, w.submit = Reply.resolved 200 (some sb) ∧ sb.data = some fn ∧
        path = "./" ++ interpolate fn ++ ".js" ∧
        Reply.resolved 200 (some pb) ∈ w.polls ∧ pb.code = some 0 ∧ pb.data = data) := by
  rcases main_writes w with ⟨h1, h2, h3, h4⟩ | ⟨sb, fn, hsub, hdata, hwr, hrw, hfs, hout⟩
  · refine ⟨by rw [h1]; simp, ?_, fun _ => ⟨h1, h3⟩, ?_⟩
    · intro path content hmem
      rw [h1] at hmem
      simp at hmem
    · intro path data hmem
      rw [h2] at hmem
      simp at hmem
  · have hraised : ∀ path data, (path, data) ∈ raisedWrites (main w).events →
        ∃ sb fn pb, w.submit = Reply.resolved 200 (some sb) ∧ sb.data = some fn ∧
          path = "./" ++ interpolate fn ++ ".js" ∧
          Reply.resolved 200 (some pb) ∈ w.polls ∧ pb.code = some 0 ∧
          pb.data = data := by
      intro path data hmem
      rw [hrw] at hmem
      obtain ⟨h1, pb, h2, h3, h4⟩ := pollLoop_raisedWrites fn w.fs w.polls path data hmem
      exact ⟨sb, fn, pb, hsub, hdata, h1, h2, h3, h4⟩
    rcases pollLoop_writes fn w.fs w.polls with ⟨h1, h2, h3⟩ |
      ⟨pb, content, h1, h2, hpd, h3, h4, h5⟩
    · refine ⟨by rw [hwr, h1]; simp, ?_, ?_, hraised⟩
      · intro path content hmem
        rw [hwr, h1] at hmem
        simp at hmem
      · intro _
        exact ⟨by rw [hwr, h1], by rw [hfs, h2]⟩
    · obtain ⟨f1, f2, f3, f4, f5⟩ := writeFileSync_frame _ _ _ _ h4
      refine ⟨by rw [hwr, h3]; simp, ?_, ?_, hraised⟩
      · intro path content' hmem
        rw [hwr, h3] at hmem
        simp only [List.mem_singleton, Prod.mk.injEq] at hmem
        obtain ⟨e1, e2⟩ := hmem
        subst e1 e2
        rw [hfs]
        refine ⟨by rw [hout, h5], ⟨sb, fn, pb, hsub, hdata, rfl, h1, h2, hpd⟩, f1, f2, f3, f4,
          f5, ?_, ?_⟩
        · intro q hq
          simp only [FileSystem.existsSync, FileSystem.readFileSync, f1, hq]
          exact ⟨f3, f4⟩
        · intro q hq
          simp only [FileSystem.existsSync, FileSystem.readFileSync, f1]
          exact f5 _ hq
      · intro hnot
        exact absurd (by rw [hout, h5]) hnot

/-- C6 in the `job42` scenario: the artifact file holds the reply's data, under
the path `./job42.js` as under `job42.js`, and the input file is as before; in
the same scenario on a read-only directory nothing is written. With the job
identifier `input` the file written is the input file itself, which then holds
the artifact. -/
theorem single_write_frame_examples :
    (main (job42World demoFs)).fs.readFileSync "./job42.js" = some "compiled output" ∧
    (main (job42World demoFs)).fs.readFileSync "job42.js" = some "compiled output" ∧
    (main (job42World demoFs)).fs.readFileSync "input.js" = some "var a = 1;" ∧
    writes (main (job42World readOnlyFs)).events = [] ∧
    (main inputJobWorld).fs.readFileSync "input.js" = some "compiled output" := by
  have h := single_write_frame (job42World demoFs)
  have hmem : ("./job42.js", "compiled output") ∈ writes (main (job42World demoFs)).events := by
    decide
  have h2 := (single_write_frame (job42World readOnlyFs)).2.2.1 (by decide)
  have h3 := single_write_frame inputJobWorld
  have hmem3 : ("./input.js", "compiled output") ∈ writes (main inputJobWorld).events := by
    decide
  have hsame := (h.2.1 _ _ hmem).2.2.2.2.2.2.2.1
  have hother := (h.2.1 _ _ hmem).2.2.2.2.2.2.2.2
  have hsame3 := (h3.2.1 _ _ hmem3).2.2.2.2.2.2.2.1
  refine ⟨(hsame "./job42.js" rfl).2, (hsame "job42.js" (by decide)).2, ?_, h2.1,
    (hsame3 "input.js" (by decide)).2⟩
  rw [(hother "input.js" (by decide)).2]
  decide

/-! ## C7 -/

/-- C7 fails as stated: when the reply is `{status 200, code 0}` and
`fs.writeFileSync` raises, the exception is caught, but the iteration has already
printed the "code write to" line. -/
theorem caught_write_failure_has_logged :
    (pollStep (some "job42") readOnlyFs
      (Reply.resolved 200 (some { code := some 0, data := some "compiled output" }))).flow =
        Flow.caught ∧
    logs (pollStep (some "job42") readOnlyFs
      (Reply.resolved 200 (some { code := some 0, data := some "compiled output" }))).events =
        [LogLine.writing "./job42.js"] ∧
    logs (pollStep (some "job42") readOnlyFs
      (Reply.resolved 200 (some { code := some 0, data := some "compiled output" }))).events ≠
        [] := by
  decide

/-- C7 (amended): an iteration in which an exception is raised sleeps for no
time, writes no file, leaves the file system as it was and does not end the
loop: the run goes on with a next iteration, which starts by issuing a status
request for the same job identifier. It logs nothing when the exception comes
from the status request or from reading `code` of a `null` body; when the
exception comes from `fs.writeFileSync`, the "code write to" line has been
printed before the failing call. -/
theorem caught_iteration_absorbed (fn : Option String) (fs : FileSystem)
    (reply : Reply PollBody) (h : (pollStep fn fs reply).flow = Flow.caught) :
    sleeps (pollStep fn fs reply).events = [] ∧
    writes (pollStep fn fs reply).events = [] ∧
    (pollStep fn fs reply).fs = fs ∧
    (((reply = Reply.raised ∨ reply = Reply.resolved 200 none) ∧
        (pollStep fn fs reply).events = [Event.post (statusRequest fn)] ∧
        logs (pollStep fn fs reply).events = []) ∨
      (∃ b, reply = Reply.resolved 200 (some b) ∧ b.code = some 0 ∧
        fs.writeFileSync (outputPath fn) b.data = none ∧
        (pollStep fn fs reply).events =
          [Event.post (statusRequest fn), Event.log (LogLine.writing (outputPath fn)),
           Event.writeFileRaised (outputPath fn) b.data])) ∧
    (∀ rest, (pollLoop fn fs (reply :: rest)).events =
        (pollStep fn fs reply).events ++ (pollLoop fn fs rest).events ∧
      (pollLoop fn fs (reply :: rest)).outcome = (pollLoop fn fs rest).outcome ∧
      (pollLoop fn fs (reply :: rest)).fs = (pollLoop fn fs rest).fs ∧
      ∃ tl, (pollLoop fn fs rest).events = Event.post (statusRequest fn) :: tl) := by
  have hf : (pollStep fn fs reply).flow ≠ Flow.done := by rw [h]; simp
  have hfs := pollStep_fs_of_not_done fn fs reply hf
  have hloop : ∀ rest, (pollLoop fn fs (reply :: rest)).events =
        (pollStep fn fs reply).events ++ (pollLoop fn fs rest).events ∧
      (pollLoop fn fs (reply :: rest)).outcome = (pollLoop fn fs rest).outcome ∧
      (pollLoop fn fs (reply :: rest)).fs = (pollLoop fn fs rest).fs ∧
      ∃ tl, (pollLoop fn fs rest).events = Event.post (statusRequest fn) :: tl := by
    intro rest
    rw [pollLoop_cons_more fn fs reply rest hf, hfs]
    exact ⟨rfl, rfl, rfl, pollLoop_head fn fs rest⟩
  refine ⟨?_, pollStep_writes_of_not_done fn fs reply hf, hfs, ?_, hloop⟩
  · rw [pollStep_sleeps]
    by_cases hp : isPending reply = true
    · rw [pollStep_pending fn fs reply hp] at h; simp at h
    · simp [hp]
  · rcases pollStep_kinds fn fs reply with ⟨b, c, fs', _, _, _, _, _, hs⟩ |
      ⟨b, hr, hcode, _, _, hw, hs⟩ | ⟨_, _, hs⟩ | ⟨_, _, _, _, _, _, hc⟩
    · rw [hs] at h; simp at h
    · exact Or.inr ⟨b, hr, hcode, hw, by rw [hs]⟩
    · rw [hs] at h; simp at h
    · obtain ⟨hev, hrep⟩ := hc h
      exact Or.inl ⟨hrep, hev, by rw [hev]; rfl⟩

/-- C7 (amended) at a status request that raises and at a write that raises. -/
theorem caught_iteration_absorbed_examples :
    logs (pollStep (some "job42") demoFs Reply.raised).events = [] ∧
    sleeps (pollStep (some "job42") demoFs Reply.raised).events = [] ∧
    writes (pollStep (some "job42") readOnlyFs
      (Reply.resolved 200 (some { code := some 0, data := some "compiled output" }))).events =
        [] := by
  have h1 := caught_iteration_absorbed (some "job42") demoFs Reply.raised rfl
  have h2 := caught_iteration_absorbed (some "job42") readOnlyFs
    (Reply.resolved 200 (some { code := some 0, data := some "compiled output" })) (by decide)
  exact ⟨by decide, h1.1, h2.2.1⟩

/-! ## C8 -/

/-- C8: in every run whose path argument names an existing readable file, the
requests issued are, in order, one submission to `/code` with body
`{code: <text of the input file>}`, followed only by status requests to
`/status`, all of them with body `{filename: j}` where `j` is the
`data.filename` of the submission answer. Status requests occur only after an
accepted submission, and there is never more than one status request beyond
the replies received, so each is issued after the previous one was answered. -/
theorem request_trace_shape (w : World) (p src : String)
    (hp : w.argv2 = some p) (hne : p ≠ "") (hex : w.fs.existsSync p = true)
    (hrd : w.fs.readFileSync p = some src) :
    (requests (main w).events = [submitRequest src] ∨
      ∃ b j k, w.submit = Reply.resolved 200 (some b) ∧ b.code = some 0 ∧ b.data = some j ∧
        1 ≤ k ∧ k ≤ w.polls.length + 1 ∧
        requests (main w).events = submitRequest src :: List.replicate k (statusRequest j)) ∧
    (submitRequest src).url = "http://34.92.175.137/code" ∧
    (submitRequest src).body = Payload.code src ∧
    (∀ j, (statusRequest j).url = "http://34.92.175.137/status" ∧
      (statusRequest j).body = Payload.filename j) := by
  refine ⟨?_, rfl, rfl, fun j => ⟨rfl, rfl⟩⟩
  rcases main_present w p src hp hne hex hrd with ⟨_, h⟩ | ⟨_, line, h⟩ |
    ⟨_, b, fn, hsub, hc, hdata, h⟩
  · left; rw [h]; simp [requests]
  · left; rw [h]; simp [requests]
  · right
    obtain ⟨k, hk1, hk2, hk⟩ := pollLoop_requests fn w.fs w.polls
    refine ⟨b, fn, k, hsub, hc, hdata, hk1, hk2, ?_⟩
    rw [h]
    simp [requests, hk]

/-- C8 in the `job42` scenario: one submission carrying the file text, then three
status requests for `job42`. -/
theorem request_trace_shape_job42 :
    requests (main (job42World demoFs)).events =
      [submitRequest "var a = 1;", statusRequest (some "job42"), statusRequest (some "job42"),
       statusRequest (some "job42")] := by
  have h := (request_trace_shape (job42World demoFs) "input.js" "var a = 1;" rfl (by decide)
    rfl rfl).1
  rcases h with h | ⟨b, j, k, _, _, _, _, _, _⟩
  · exact absurd h (by decide)
  · decide

/-! ## C9 -/

/-- C9: an iteration awaits a delay if and only if its reply has status 200 and
`code == 1`; the delay is then one `sleep(2000)`, awaited right after the reply
and before the next status request. Every other outcome (code -1, a status other
than 200, an exception, any other code, no code) leads to no delay. Hence in any
run of the loop the delays awaited are 2000 ms each, one per reply with status
200 and code 1 among the replies the client has seen, and they sum to 2000
times the number of those replies. -/
theorem delay_only_when_pending (fn : Option String) (fs : FileSystem) :
    (∀ reply, sleeps (pollStep fn fs reply).events =
      if isPending reply = true then [2000] else []) ∧
    (∀ reply, isPending reply = true →
      (pollStep fn fs reply).events = [Event.post (statusRequest fn), Event.sleep 2000] ∧
      (pollStep fn fs reply).flow = Flow.next) ∧
    (∀ polls, sleeps (pollLoop fn fs polls).events =
      List.replicate
        ((polls.take (answered (pollLoop fn fs polls))).countP isPending) 2000) ∧
    (∀ polls, (sleeps (pollLoop fn fs polls).events).sum =
      2000 * (polls.take (answered (pollLoop fn fs polls))).countP isPending) := by
  refine ⟨pollStep_sleeps fn fs, ?_, pollLoop_sleeps fn fs, ?_⟩
  · intro reply hp
    rw [pollStep_pending fn fs reply hp]
    exact ⟨rfl, rfl⟩
  · intro polls
    rw [pollLoop_sleeps, List.sum_replicate, smul_eq_mul, mul_comm]

/-- C9 on a run that sees an error reply, a "still compiling" reply, an answer
with status 503 carrying code 1 (its request rejects) and a second "still
compiling" reply: two delays of 2000 ms. -/
theorem delay_only_when_pending_mixed_run :
    sleeps (pollLoop (some "job42") demoFs
      [Reply.resolved 200 (some { code := some (-1), data := none }),
       Reply.resolved 200 (some { code := some 1, data := none }),
       settle (Exchange.answered 503 (some { code := some 1, data := none })),
       Reply.resolved 200 (some { code := some 1, data := none })]).events = [2000, 2000] ∧
    (pollStep (some "job42") demoFs
      (Reply.resolved 200 (some { code := some 1, data := none }))).events =
      [Event.post (statusRequest (some "job42")), Event.sleep 2000] := by
  have h := delay_only_when_pending (some "job42") demoFs
  refine ⟨?_, (h.2.1 (Reply.resolved 200 (some { code := some 1, data := none })) rfl).1⟩
  rw [h.2.2.1]
  decide

/-! ## C10 -/

/-- C10 fails as stated: for the job identifier `../job42` the artifact is
written to `./../job42.js`, a file of the parent directory; for `out/job42` it is
written to `./out/job42.js`, a file of a subdirectory. -/
theorem output_path_can_leave_directory :
    writes (pollLoop (some "../job42") demoFs
      [Reply.resolved 200 (some { code := some 0, data := some "compiled output" })]).events =
      [("./../job42.js", "compiled output")] ∧
    locate "./../job42.js" = none ∧
    isDirectChild "./../job42.js" = false ∧
    writes (pollLoop (some "out/job42") demoFs
      [Reply.resolved 200 (some { code := some 0, data := some "compiled output" })]).events =
      [("./out/job42.js", "compiled output")] ∧
    isDirectChild "./out/job42.js" = false := by
  decide

/-- C10 (amended): the artifact is written at the path `"./" + filename + ".js"`,
the job identifier being inserted as it was received. When the job identifier
contains no `/`, that path names the entry `<filename>.js` of the working
directory itself. -/
theorem output_path_direct_child_of_plain_name (fn : Option String) (fs : FileSystem)
    (polls : List (Reply PollBody)) (path content : String)
    (hmem : (path, content) ∈ writes (pollLoop fn fs polls).events) :
    path = "./" ++ interpolate fn ++ ".js" ∧
    ('/' ∉ (interpolate fn).data →
      locate path = some [(interpolate fn ++ ".js").data] ∧ isDirectChild path = true) := by
  have hpath : path = "./" ++ interpolate fn ++ ".js" := by
    rcases pollLoop_writes fn fs polls with ⟨h1, _, _⟩ | ⟨pb, c, _, _, _, h3, _, _⟩
    · rw [h1] at hmem; simp at hmem
    · rw [h3] at hmem
      simp only [List.mem_singleton, Prod.mk.injEq] at hmem
      exact hmem.1
  refine ⟨hpath, ?_⟩
  intro hno
  have hloc := locate_outputPath (interpolate fn) hno
  rw [hpath]
  exact ⟨hloc, by simp [isDirectChild, hloc]⟩

/-- C10 (amended) at the job identifier `job42`. -/
theorem output_path_direct_child_of_plain_name_job42 :
    isDirectChild "./job42.js" = true := by
  have h := output_path_direct_child_of_plain_name (some "job42") demoFs
    [Reply.resolved 200 (some { code := some 0, data := some "compiled output" })]
    "./job42.js" "compiled output" (by decide)
  exact (h.2 (by decide)).2

end SecurityWorker
